import Mathlib

/-!
# SafeHaven core: shallow embedding and verification

This file embeds the two core components of the SafeHaven repository in Lean 4
and proves/refutes the frozen specification claims about them:

* the k-nearest-neighbor classifier over embeddings
  (`KNNClassifier.classify`, `EmbeddingModel.cosineSimilarity`,
  `EmbeddingModel.euclideanDistance`), and
* the rule evaluation engine (`RuleEngine.processEvent`, `evaluateRule`,
  `evaluateCondition`, `addToRecentEvents`).

Modelling decisions:

* JavaScript `number` is embedded as `ℝ` on the classifier side (the code takes
  square roots) and as `ℚ` on the rule-engine side (the engine only compares and
  adds, so everything stays computable there). Timestamps are epoch
  milliseconds (`ℤ`); an unparseable ISO timestamp (JS `Invalid Date`) is
  `none`.
* JS falsy fallbacks (`x || d`) are embedded explicitly: `0`, `""` and absent
  option values fall back exactly as the source does.
* A thrown JS exception is an `Except.error`; external I/O (database reads,
  MQTT publishes, embedding extraction) is passed in as data, per the spec's
  external-collaborator boundary.
-/

namespace SafeHaven

/-! ## JavaScript semantics helpers -/

/-- JS `x || d` for an optional natural-number option (`options.k || this.k`):
`undefined` and `0` are falsy and fall back to the default. -/
def jsOrNat (x : Option ℕ) (d : ℕ) : ℕ :=
  match x with
  | none => d
  | some n => if n = 0 then d else n

/-- JS `x || d` for an optional real option
(`options.similarityThreshold || this.similarityThreshold`). -/
noncomputable def jsOrReal (x : Option ℝ) (d : ℝ) : ℝ :=
  match x with
  | none => d
  | some t => if t = 0 then d else t

/-- JS `x || 1` applied to a (nonnegative) denominator, as in
`dotProduct / (Math.sqrt(norm1) * Math.sqrt(norm2) || 1)`. -/
noncomputable def jsOr1 (x : ℝ) : ℝ := if x = 0 then 1 else x

/-! ## SimilarityMath (`EmbeddingModel.cosineSimilarity` / `euclideanDistance`)

The source loops `for (let i = 0; i < embedding1.length; i++)` accumulating
dot product and squared norms; we embed the loop as sums over
`Finset.range a.length` with `List.getD`. -/

/-- The value computed by `cosineSimilarity` once the dimension check passed:
`dotProduct / (Math.sqrt(norm1) * Math.sqrt(norm2) || 1)`. -/
noncomputable def cosineVal (a b : List ℝ) : ℝ :=
  let dotProduct := ∑ i ∈ Finset.range a.length, a.getD i 0 * b.getD i 0
  let norm1 := ∑ i ∈ Finset.range a.length, a.getD i 0 * a.getD i 0
  let norm2 := ∑ i ∈ Finset.range a.length, b.getD i 0 * b.getD i 0
  dotProduct / jsOr1 (Real.sqrt norm1 * Real.sqrt norm2)

/-- `EmbeddingModel.cosineSimilarity`: throws on mismatched dimensions. -/
noncomputable def cosineSimilarity (a b : List ℝ) : Except String ℝ :=
  if a.length = b.length then .ok (cosineVal a b)
  else .error "Embeddings must have same dimension"

/-- The value computed by `euclideanDistance` once the dimension check passed. -/
noncomputable def euclideanVal (a b : List ℝ) : ℝ :=
  Real.sqrt (∑ i ∈ Finset.range a.length,
    (a.getD i 0 - b.getD i 0) * (a.getD i 0 - b.getD i 0))

/-- `EmbeddingModel.euclideanDistance`: throws on mismatched dimensions. -/
noncomputable def euclideanDistance (a b : List ℝ) : Except String ℝ :=
  if a.length = b.length then .ok (euclideanVal a b)
  else .error "Embeddings must have same dimension"

/-! ## KNNClassifier data model -/

/-- A labeled training sample for one model (the `modelId` has been used to
fetch the sample list and is dropped). -/
structure TrainingSample where
  label : String
  embedding : List ℝ

/-- One entry of the classify result's `neighbors` array
(`{label, distance, confidence}`, where `confidence` receives the neighbor's
similarity). -/
structure Neighbor where
  label : String
  distance : ℝ
  confidence : ℝ

/-- `ClassificationResult` as returned by `classify`. -/
structure ClassificationResult where
  label : String
  confidence : ℝ
  distance : ℝ
  neighbors : List Neighbor

/-- The mutable per-instance configuration of `KNNClassifier`:
`private k: number = 5` and `private similarityThreshold: number = 0.7`. -/
structure KNNState where
  k : ℕ := 5
  similarityThreshold : ℝ := 7 / 10

/-- A fresh `KNNClassifier` instance's configuration. -/
noncomputable def KNNState.default : KNNState := {}

/-- `setK(k)`: `this.k = Math.max(1, k)`. -/
def setK (st : KNNState) (k : ℕ) : KNNState := { st with k := max 1 k }

/-- `setSimilarityThreshold(t)`: `this.similarityThreshold = Math.max(0, Math.min(1, t))`. -/
noncomputable def setSimilarityThreshold (st : KNNState) (t : ℝ) : KNNState :=
  { st with similarityThreshold := max 0 (min 1 t) }

/-- One element of the `distances` array built inside `classify`:
`{label, distance, similarity}`. -/
structure Scored where
  label : String
  distance : ℝ
  similarity : ℝ

/-- The per-sample computation of `classify` (lines 60-70 of the source):
`distance = useDistance ? euclideanDistance(q, s) : 1 - cosineSimilarity(q, s)`
and `similarity = useDistance ? 1 / (1 + distance) : 1 - distance`. -/
noncomputable def scoreSample (useDistance : Bool) (queryEmbedding : List ℝ)
    (sample : TrainingSample) : Except String Scored := do
  let distance ←
    if useDistance then euclideanDistance queryEmbedding sample.embedding
    else (cosineSimilarity queryEmbedding sample.embedding).map (fun c => 1 - c)
  .ok { label := sample.label, distance := distance,
        similarity := if useDistance then 1 / (1 + distance) else 1 - distance }

noncomputable instance : DecidableRel (fun x y : Scored => x.distance ≤ y.distance) :=
  fun _ _ => Real.decidableLE _ _

/-- `distances.sort((a, b) => a.distance - b.distance)`: a stable ascending
sort by distance (modern JS engines' `Array.prototype.sort` is stable).
`List.insertionSort` with the non-strict `≤` is stable: each element is
inserted in front of the first later element it is `≤`, so elements of equal
distance keep their original relative order, as in the JS sort. -/
noncomputable def sortByDistance (l : List Scored) : List Scored :=
  List.insertionSort (fun x y => x.distance ≤ y.distance) l

/-- One step of the `labelVotes` map construction: JS `Map.set` updates an
existing key in place and appends a new key at the end (insertion order). -/
def updateVote : List (String × ℕ × ℝ) → Scored → List (String × ℕ × ℝ)
  | [], n => [(n.label, 1, n.similarity)]
  | (l, c, s) :: rest, n =>
    if n.label = l then (l, c + 1, s + n.similarity) :: rest
    else (l, c, s) :: updateVote rest n

/-- The `labelVotes` map: `neighbors.forEach(...)` accumulating
`{count, totalSimilarity}` per label, keyed in first-encounter order. -/
def buildVotes (neighbors : List Scored) : List (String × ℕ × ℝ) :=
  neighbors.foldl updateVote []

/-- The score of one `labelVotes` entry:
`data.count * (data.totalSimilarity / data.count)`. -/
noncomputable def voteScore (v : String × ℕ × ℝ) : ℝ := (v.2.1 : ℝ) * (v.2.2 / (v.2.1 : ℝ))

/-- One step of the `labelVotes.forEach` fold: replace the running
`(bestLabel, bestScore, totalVotes)` when this entry's score is strictly
greater (`if (score > bestScore)`). -/
noncomputable def voteStep (best : String × ℝ × ℕ) (v : String × ℕ × ℝ) : String × ℝ × ℕ :=
  if best.2.1 < voteScore v then (v.1, voteScore v, v.2.1) else best

/-- The `labelVotes.forEach` fold selecting `bestLabel` / `bestScore` /
`totalVotes`, starting from `bestLabel = ''`, `bestScore = -1`,
`totalVotes = 0`. -/
noncomputable def pickBest (votes : List (String × ℕ × ℝ)) : String × ℝ × ℕ :=
  votes.foldl voteStep ("", -1, 0)

/-- `KNNClassifier.classify`. The query embedding is the output of the external
embedding extractor; the training samples are the rows fetched for the model;
`optK`/`optThreshold` are the per-call `options`. Thrown exceptions are
rethrown by the source's catch block, hence the `Except` result; `null` is
`none`. -/
noncomputable def classify (st : KNNState) (trainingSamples : List TrainingSample)
    (queryEmbedding : List ℝ) (optK : Option ℕ) (optThreshold : Option ℝ)
    (useDistance : Bool) : Except String (Option ClassificationResult) :=
  let k := jsOrNat optK st.k
  let threshold := jsOrReal optThreshold st.similarityThreshold
  if trainingSamples.length = 0 then .ok none
  else do
    let distances ← trainingSamples.mapM (scoreSample useDistance queryEmbedding)
    let sorted := sortByDistance distances
    let neighbors := sorted.take k
    match neighbors with
    | [] => .error "TypeError: bestMatch is undefined"
    | bestMatch :: _ =>
      if bestMatch.similarity < threshold then .ok none
      else
        let labelVotes := buildVotes neighbors
        let best := pickBest labelVotes
        let bestLabel := best.1
        let totalVotes := best.2.2
        let avgSimilarity :=
          ((neighbors.filter (fun n => n.label = bestLabel)).map
            (fun n => n.similarity)).sum / (totalVotes : ℝ)
        let confidence := min (avgSimilarity * ((totalVotes : ℝ) / (k : ℝ))) 1
        .ok (some
          { label := bestLabel, confidence := confidence,
            distance := bestMatch.distance,
            neighbors := neighbors.map (fun n =>
              { label := n.label, distance := n.distance, confidence := n.similarity }) })

/-! ## RuleEngine data model

Shapes are taken from the fields the rule-engine source actually reads.
`number` fields are `ℚ` (confidences) / `ℤ` (times in epoch milliseconds);
optional fields that the source guards with JS truthiness checks are
`Option _`, with `0` / `""` falsy cases handled explicitly at each use site
exactly where the source checks them. -/

structure CustomDetection where
  label : String
  confidence : ℚ
deriving DecidableEq

/-- A detection event as consumed by `RuleEngine.processEvent` (the bounding
box and metadata are never read during evaluation and are omitted).
`timestamp` is the parsed `new Date(event.timestamp)`: `none` models an
invalid date string. -/
structure DetectionEvent where
  id : String
  cameraId : String
  timestamp : Option ℤ
  detectionType : String
  confidence : ℚ
  zones : List String
  severity : String
  customDetections : List CustomDetection
deriving DecidableEq

/-- One rule condition: a stringly-typed tagged record, as in the source. -/
structure RuleCondition where
  type : String
  operator : Option String := none
  detectionType : Option String := none
  detectionTypes : Option (List String) := none
  zone : Option String := none
  timeRange : Option String := none
  frequencyThreshold : Option ℤ := none
  frequencyTimeWindow : Option ℤ := none
  confidenceThreshold : Option ℚ := none
  severity : Option String := none
  customDetection : Option String := none
deriving DecidableEq

structure Rule where
  id : String
  name : String
  enabled : Bool
  conditions : List RuleCondition
  /-- action type tags; action dispatch itself is external I/O -/
  actions : List String
  cooldownMinutes : ℤ
deriving DecidableEq

/-- The `EventContext` built once per incoming event. `recentEvents` is the
result of the external database range query (`getRecentEvents`, last 60
minutes); on storage failure the source substitutes `[]`. -/
structure EventContext where
  event : DetectionEvent
  cameraId : String
  timestamp : Option ℤ
  recentEvents : List DetectionEvent
  zoneHistory : List (String × ℕ)
deriving DecidableEq

/-- `RuleEvaluation` as produced by `evaluateRule`. `cooldownRemaining` is in
minutes (`Math.ceil((cooldownEnd - now) / 1000 / 60)`). -/
structure RuleEvaluation where
  triggered : Bool
  conditionsMet : List Bool
  lastTriggered : Option ℤ
  cooldownRemaining : Option ℤ
deriving DecidableEq

/-- The mutable per-engine state: `lastTriggered: Map<string, Date>` and
`recentEvents: Map<string, DetectionEvent[]>` (a missing camera key reads as
the empty list, matching the source's lazy initialization). -/
structure EngineState where
  lastTriggered : String → Option ℤ
  recentEvents : String → List DetectionEvent

/-! ## Per-condition evaluators -/

/-- `evaluateDetectionCondition`: `if (!condition.detectionType) return false`
then dispatch on the operator string. -/
def evaluateDetectionCondition (condition : RuleCondition) (event : DetectionEvent) : Bool :=
  match condition.detectionType with
  | none => false
  | some expectedType =>
    if expectedType = "" then false
    else
      let detectionType := event.detectionType
      if condition.operator = some "equals" then detectionType == expectedType
      else if condition.operator = some "not_equals" then detectionType != expectedType
      else if condition.operator = some "in" then
        match condition.detectionTypes with
        | some types => types.contains detectionType
        | none => false
      else false

/-- `evaluateZoneCondition`: `if (!condition.zone) return false` then
`in` / `not_in` membership in `event.zones`. -/
def evaluateZoneCondition (condition : RuleCondition) (event : DetectionEvent) : Bool :=
  match condition.zone with
  | none => false
  | some expectedZone =>
    if expectedZone = "" then false
    else
      let zones := event.zones
      if condition.operator = some "in" then zones.contains expectedZone
      else if condition.operator = some "not_in" then !zones.contains expectedZone
      else false

/-- Left-pad a two-digit field, as `date-fns` `format(_, 'HH:mm')` does. -/
def pad2 (n : ℕ) : String := if n < 10 then "0" ++ toString n else toString n

/-- `format(timestamp, 'HH:mm')` on a valid date, from epoch milliseconds
(the engine's clock is modelled in UTC). -/
def formatHHMM (ms : ℤ) : String :=
  let totalMinutes := ((ms / 60000) % 1440).toNat
  pad2 (totalMinutes / 60) ++ ":" ++ pad2 (totalMinutes % 60)

/-- JS `<` on strings: lexicographic comparison by code unit (for the ASCII
"HH:mm" strings involved, identical to comparison by code point). -/
def lexLtChars : List Char → List Char → Bool
  | [], [] => false
  | [], _ :: _ => true
  | _ :: _, [] => false
  | a :: as, b :: bs => if a < b then true else if b < a then false else lexLtChars as bs

def jsStrLt (a b : String) : Bool := lexLtChars a.data b.data

/-- JS `a <= b` on strings (total order: `!(b < a)`). -/
def jsStrLe (a b : String) : Bool := !jsStrLt b a

/-- JS `String.prototype.split(sep)` restricted to a single-character
separator, over the character list. -/
def jsSplitAux (c : Char) : List Char → List (List Char)
  | [] => [[]]
  | x :: xs =>
    if x = c then [] :: jsSplitAux c xs
    else
      match jsSplitAux c xs with
      | [] => [[x]]
      | h :: t => (x :: h) :: t

/-- JS `s.split(c)`. -/
def jsSplit (c : Char) (s : String) : List String :=
  (jsSplitAux c s.data).map (fun l => ⟨l⟩)

/-- `evaluateTimeCondition`: `if (!condition.timeRange) return false`;
`format` throws `RangeError: Invalid time value` on an invalid date; the range
branch compares zero-padded "HH:mm" strings lexicographically
(`currentTime >= startTime && currentTime <= endTime`), the no-dash branch is
an exact string match. -/
def evaluateTimeCondition (condition : RuleCondition) (timestamp : Option ℤ) :
    Except String Bool :=
  match condition.timeRange with
  | none => .ok false
  | some timeRange =>
    if timeRange = "" then .ok false
    else
      match timestamp with
      | none => .error "RangeError: Invalid time value"
      | some ms =>
        let currentTime := formatHHMM ms
        let parts := jsSplit '-' timeRange
        let startTime := parts.getD 0 ""
        let endTime := parts.getD 1 ""
        if timeRange.data.contains '-' then
          .ok (jsStrLe startTime currentTime && jsStrLe currentTime endTime)
        else
          .ok (currentTime == timeRange)

/-- `evaluateFrequencyCondition`: falsy guard on both numeric fields, cutoff
`now - windowMinutes`, events with an invalid (`NaN`) timestamp never pass the
`>= cutoffTime` comparison, optional truthy `detectionType` filter. -/
def evaluateFrequencyCondition (condition : RuleCondition)
    (recentEvents : List DetectionEvent) (now : ℤ) : Bool :=
  match condition.frequencyThreshold, condition.frequencyTimeWindow with
  | some threshold, some timeWindowMinutes =>
    if threshold = 0 ∨ timeWindowMinutes = 0 then false
    else
      let cutoffTime := now - timeWindowMinutes * 60000
      let relevantEvents := recentEvents.filter (fun e =>
        match e.timestamp with
        | none => false
        | some t => cutoffTime ≤ t)
      let dtFilter :=
        match condition.detectionType with
        | some dt => if dt = "" then none else some dt
        | none => none
      match dtFilter with
      | some dt =>
        decide (threshold ≤ ((relevantEvents.filter
          (fun e => e.detectionType == dt)).length : ℤ))
      | none => decide (threshold ≤ (relevantEvents.length : ℤ))
  | _, _ => false

/-- `evaluateConfidenceCondition`: `if (!condition.confidenceThreshold) return
false` (so a threshold of exactly `0` never matches), then the four
comparison operators. -/
def evaluateConfidenceCondition (condition : RuleCondition) (event : DetectionEvent) : Bool :=
  match condition.confidenceThreshold with
  | none => false
  | some threshold =>
    if threshold = 0 then false
    else
      let confidence := event.confidence
      if condition.operator = some "greater_than" then decide (threshold < confidence)
      else if condition.operator = some "greater_than_or_equal" then
        decide (threshold ≤ confidence)
      else if condition.operator = some "less_than" then decide (confidence < threshold)
      else if condition.operator = some "less_than_or_equal" then
        decide (confidence ≤ threshold)
      else false

/-- The fixed ordinal scale `{ low: 1, medium: 2, high: 3 }`; any other
severity string reads as JS `undefined`. -/
def severityOrder (s : String) : Option ℕ :=
  if s = "low" then some 1
  else if s = "medium" then some 2
  else if s = "high" then some 3
  else none

/-- `evaluateSeverityCondition`: direct match for `equals`; for
`greater_than_or_equal` an ordinal comparison in which any `undefined` lookup
makes the JS `>=` comparison false. -/
def evaluateSeverityCondition (condition : RuleCondition) (event : DetectionEvent) : Bool :=
  match condition.severity with
  | none => false
  | some expectedSeverity =>
    if expectedSeverity = "" then false
    else
      if condition.operator = some "equals" then event.severity == expectedSeverity
      else if condition.operator = some "greater_than_or_equal" then
        match severityOrder event.severity, severityOrder expectedSeverity with
        | some a, some b => decide (b ≤ a)
        | _, _ => false
      else false

/-- `evaluateCustomCondition`: true iff some custom detection's label equals
the (truthy) configured label. -/
def evaluateCustomCondition (condition : RuleCondition) (event : DetectionEvent) : Bool :=
  match condition.customDetection with
  | none => false
  | some expectedCustom =>
    if expectedCustom = "" then false
    else event.customDetections.any (fun cd => cd.label == expectedCustom)

/-- `evaluateCondition`: dispatch on `condition.type`; an unknown type is
logged and treated as false. Only the time branch can throw (date-fns
`format` on an invalid date); `now` is the wall clock used by the frequency
branch (`new Date()`). -/
def evaluateCondition (condition : RuleCondition) (context : EventContext) (now : ℤ) :
    Except String Bool :=
  if condition.type = "detection" then .ok (evaluateDetectionCondition condition context.event)
  else if condition.type = "zone" then .ok (evaluateZoneCondition condition context.event)
  else if condition.type = "time" then evaluateTimeCondition condition context.timestamp
  else if condition.type = "frequency" then
    .ok (evaluateFrequencyCondition condition context.recentEvents now)
  else if condition.type = "confidence" then
    .ok (evaluateConfidenceCondition condition context.event)
  else if condition.type = "severity" then .ok (evaluateSeverityCondition condition context.event)
  else if condition.type = "custom" then .ok (evaluateCustomCondition condition context.event)
  else .ok false

/-! ## Rule evaluation and event processing -/

/-- The condition loop of `evaluateRule` followed by
`triggered = allConditionsMet && conditionsMet.length > 0`; a throwing
condition aborts the loop (there is no catch inside `evaluateRule`). -/
def evaluateRuleConditions (rule : Rule) (context : EventContext) (now : ℤ)
    (lastTriggered : Option ℤ) : Except String RuleEvaluation := do
  let conditionsMet ← rule.conditions.mapM (fun c => evaluateCondition c context now)
  .ok { triggered := conditionsMet.all id && decide (0 < conditionsMet.length),
        conditionsMet := conditionsMet, lastTriggered := lastTriggered,
        cooldownRemaining := none }

/-- `RuleEngine.evaluateRule`. The cooldown gate is embedded exactly as
written: when a `lastTriggered` entry exists and `cooldownMinutes > 0`, the
rule is skipped (with `conditionsMet = [false]`) when
`isAfter(new Date(), cooldownEnd)`, i.e. when `now` is strictly AFTER the end
of the cooldown window. -/
def evaluateRule (st : EngineState) (rule : Rule) (context : EventContext) (now : ℤ) :
    Except String RuleEvaluation :=
  match st.lastTriggered rule.id with
  | some lastTriggeredAt =>
    if 0 < rule.cooldownMinutes then
      let cooldownEnd := lastTriggeredAt + rule.cooldownMinutes * 60000
      if cooldownEnd < now then
        .ok { triggered := false, conditionsMet := [false],
              lastTriggered := some lastTriggeredAt,
              cooldownRemaining := some ⌈(((cooldownEnd - now : ℤ) : ℚ)) / 1000 / 60⌉ }
      else evaluateRuleConditions rule context now (some lastTriggeredAt)
    else evaluateRuleConditions rule context now (some lastTriggeredAt)
  | none => evaluateRuleConditions rule context now none

/-- The state update of `triggerRule`:
`this.lastTriggered.set(rule.id, new Date())`. Action execution and the MQTT
publish are external side effects. -/
def recordTrigger (st : EngineState) (rule : Rule) (now : ℤ) : EngineState :=
  { st with lastTriggered := fun id => if id = rule.id then some now else st.lastTriggered id }

/-- The `for (const rule of this.rules.values())` loop of `processEvent`:
enabled rules are evaluated in order; a triggered rule updates
`lastTriggered` and is recorded; the first thrown error aborts the loop and
is reported to the surrounding catch. Returns (state, triggered rule ids,
error). -/
def processRules (st : EngineState) (rules : List Rule) (context : EventContext) (now : ℤ) :
    EngineState × List String × Option String :=
  match rules with
  | [] => (st, [], none)
  | rule :: rest =>
    if rule.enabled then
      match evaluateRule st rule context now with
      | .error e => (st, [], some e)
      | .ok evaluation =>
        if evaluation.triggered then
          let res := processRules (recordTrigger st rule now) rest context now
          (res.1, rule.id :: res.2.1, res.2.2)
        else processRules st rest context now
    else processRules st rest context now

/-- `calculateZoneHistory`: count events per zone name. JS object key order is
insertion order; the tally is an assoc list in first-encounter order. -/
def bumpZone : List (String × ℕ) → String → List (String × ℕ)
  | [], z => [(z, 1)]
  | (n, c) :: rest, z => if z = n then (n, c + 1) :: rest else (n, c) :: bumpZone rest z

def calculateZoneHistory (events : List DetectionEvent) : List (String × ℕ) :=
  events.foldl (fun acc e => e.zones.foldl bumpZone acc) []

/-- `buildEventContext`: the recent events come from the external database
query (last 60 minutes); storage failure degrades to `[]` upstream. -/
def buildEventContext (event : DetectionEvent) (recentEvents : List DetectionEvent) :
    EventContext :=
  { event := event, cameraId := event.cameraId, timestamp := event.timestamp,
    recentEvents := recentEvents, zoneHistory := calculateZoneHistory recentEvents }

/-- `addToRecentEvents` on one camera's list: push, then
`if (events.length > 100) events.shift()`. -/
def addToRecentEvents (events : List DetectionEvent) (event : DetectionEvent) :
    List DetectionEvent :=
  let events' := events ++ [event]
  if 100 < events'.length then events'.tail else events'

/-- `addToRecentEvents` on the per-camera map. -/
def addToRecentEventsMap (recentEvents : String → List DetectionEvent)
    (event : DetectionEvent) : String → List DetectionEvent :=
  fun key =>
    if key = event.cameraId then addToRecentEvents (recentEvents event.cameraId) event
    else recentEvents key

/-- The cooldown-gate condition of `evaluateRule`, exactly as the source
tests it: a `lastTriggered` entry exists, `cooldownMinutes > 0`, and
`isAfter(now, cooldownEnd)` holds. When it does, the rule is skipped without
evaluating its conditions. -/
def cooldownSkips (st : EngineState) (rule : Rule) (now : ℤ) : Prop :=
  ∃ lastTriggeredAt, st.lastTriggered rule.id = some lastTriggeredAt ∧
    0 < rule.cooldownMinutes ∧ lastTriggeredAt + rule.cooldownMinutes * 60000 < now

/-- The observable outcome of one `processEvent` call: the engine state
afterwards, the rules that fired (in order), and the error swallowed by the
outer `try/catch`, if any. -/
structure ProcessOutcome where
  state : EngineState
  triggers : List String
  errorLogged : Option String

/-- `RuleEngine.processEvent`: build the context, run every enabled rule,
then append the event to the in-memory history — unless an error was thrown,
in which case the outer catch logs it and the history append is skipped. -/
def processEvent (st : EngineState) (rules : List Rule) (event : DetectionEvent)
    (dbRecentEvents : List DetectionEvent) (now : ℤ) : ProcessOutcome :=
  let context := buildEventContext event dbRecentEvents
  let res := processRules st rules context now
  match res.2.2 with
  | some e => { state := res.1, triggers := res.2.1, errorLogged := some e }
  | none =>
    { state := { res.1 with recentEvents := addToRecentEventsMap res.1.recentEvents event },
      triggers := res.2.1, errorLogged := none }

/-! ## Specification-side definitions (transcribed from the spec's words, for
refinement comparisons against the code-derived definitions above) -/

/-- The distinct labels among the neighbors, in first-encounter (rank) order. -/
def distinctLabels (neighbors : List Scored) : List String :=
  neighbors.foldl (fun acc n => if n.label ∈ acc then acc else acc ++ [n.label]) []

/-- Number of neighbors carrying a given label. -/
def labelCount (neighbors : List Scored) (l : String) : ℕ :=
  (neighbors.filter (fun n => n.label = l)).length

/-- Total similarity of the neighbors carrying a given label. -/
noncomputable def labelTotalSim (neighbors : List Scored) (l : String) : ℝ :=
  ((neighbors.filter (fun n => n.label = l)).map (fun n => n.similarity)).sum

/-- Average similarity of the neighbors carrying a given label. -/
noncomputable def labelAvgSim (neighbors : List Scored) (l : String) : ℝ :=
  labelTotalSim neighbors l / (labelCount neighbors l : ℝ)

/-- The claimed per-label score: vote count times average similarity of the
neighbors carrying that label. -/
noncomputable def claimScore (neighbors : List Scored) (l : String) : ℝ :=
  (labelCount neighbors l : ℝ) * labelAvgSim neighbors l

/-- The claimed winner: the label with the highest score among the distinct
labels in neighbor rank order, ties broken in favor of the label first
encountered. -/
noncomputable def claimWinner (neighbors : List Scored) : Option String :=
  match distinctLabels neighbors with
  | [] => none
  | l :: ls => some (ls.foldl (fun best next =>
      if claimScore neighbors best < claimScore neighbors next then next else best) l)

/-! ## Concrete fixtures used by counterexamples and witnesses -/

/-- A confidence condition `confidence >= 0.8`. -/
def confGteCond : RuleCondition :=
  { type := "confidence", operator := some "greater_than_or_equal",
    confidenceThreshold := some (4 / 5) }

/-- An always-matching (for our fixture events) one-condition rule with a
5-minute cooldown. -/
def cooldownRule : Rule :=
  { id := "r1", name := "high confidence", enabled := true, conditions := [confGteCond],
    actions := ["notification"], cooldownMinutes := 5 }

/-- The same rule shape without a cooldown. -/
def confRule : Rule :=
  { id := "rc", name := "high confidence", enabled := true, conditions := [confGteCond],
    actions := ["notification"], cooldownMinutes := 0 }

/-- A rule with a time condition; evaluating it on an event whose timestamp
failed to parse throws inside `evaluateCondition`. -/
def throwRule : Rule :=
  { id := "rt", name := "daytime", enabled := true,
    conditions := [{ type := "time", timeRange := some "10:00-11:00" }],
    actions := [], cooldownMinutes := 0 }

/-- An event with confidence 0.85 at t = 60000 ms. -/
def event85 : DetectionEvent :=
  { id := "e1", cameraId := "cam1", timestamp := some 60000, detectionType := "person",
    confidence := 17 / 20, zones := [], severity := "medium", customDetections := [] }

/-- An event whose ISO timestamp failed to parse (`Invalid Date`). -/
def invalidTsEvent : DetectionEvent :=
  { id := "e2", cameraId := "cam1", timestamp := none, detectionType := "person",
    confidence := 9 / 10, zones := [], severity := "medium", customDetections := [] }

/-- A fresh engine state. -/
def emptyState : EngineState := { lastTriggered := fun _ => none, recentEvents := fun _ => [] }

/-- The engine state right after `cooldownRule` triggered at t0 = 0. -/
def triggeredState : EngineState :=
  { lastTriggered := fun id => if id = "r1" then some 0 else none,
    recentEvents := fun _ => [] }

/-- A sample set whose three same-label cosine similarities (3/5, -4/5,
-24/25) sum below -1, so every label score stays at or below the vote fold's
-1 sentinel even though the best similarity 3/5 can pass a threshold of
3/5. -/
noncomputable def lowSimSamples : List TrainingSample :=
  [{ label := "A", embedding := [3/5, 4/5] },
   { label := "A", embedding := [-(4/5), 3/5] },
   { label := "A", embedding := [-(24/25), 7/25] }]

/-- The per-sample scores `classify` computes for `lowSimSamples` against the
query [1, 0] in the cosine branch. -/
noncomputable def lowSimScored : List Scored :=
  [{ label := "A", distance := 1 - 3/5, similarity := 3/5 },
   { label := "A", distance := 1 - -(4/5), similarity := -(4/5) },
   { label := "A", distance := 1 - -(24/25), similarity := -(24/25) }]

/-- A well-behaved sample set: two "cat" samples (similarities 1 and 3/5) and
one "dog" sample (similarity 0) against the query [1, 0]. -/
noncomputable def catDogSamples : List TrainingSample :=
  [{ label := "cat", embedding := [1, 0] },
   { label := "cat", embedding := [3/5, 4/5] },
   { label := "dog", embedding := [0, 1] }]

/-- The per-sample scores `classify` computes for `catDogSamples` against the
query [1, 0] in the cosine branch. -/
noncomputable def catDogScored : List Scored :=
  [{ label := "cat", distance := 1 - 1, similarity := 1 },
   { label := "cat", distance := 1 - 3/5, similarity := 3/5 },
   { label := "dog", distance := 1 - 0, similarity := 0 }]

/-! ## Helper lemmas -/

deriving instance DecidableEq for Except

theorem exceptOkBind {ε α β : Type} (a : α) (f : α → Except ε β) :
    ((Except.ok a : Except ε α) >>= f) = f a := rfl

theorem exceptErrBind {ε α β : Type} (e : ε) (f : α → Except ε β) :
    ((Except.error e : Except ε α) >>= f) = .error e := rfl

theorem exceptOkMap {ε α β : Type} (a : α) (f : α → β) :
    (Except.ok a : Except ε α).map f = .ok (f a) := rfl

theorem addToRecentEvents_foldl (evs : List DetectionEvent) :
    ∀ acc : List DetectionEvent, acc.length ≤ 100 →
      evs.foldl addToRecentEvents acc = (acc ++ evs).drop ((acc.length + evs.length) - 100) := by
  induction evs with
  | nil =>
    intro acc h
    simp [Nat.sub_eq_zero_of_le h]
  | cons e rest ih =>
    intro acc h
    rw [List.foldl_cons]
    by_cases hlen : 100 < (acc ++ [e]).length
    · have h100 : acc.length = 100 := by
        simp only [List.length_append, List.length_cons, List.length_nil] at hlen
        omega
      have hadd : addToRecentEvents acc e = (acc ++ [e]).tail := by
        unfold addToRecentEvents
        rw [if_pos hlen]
      obtain ⟨a, t, rfl⟩ : ∃ a t, acc = a :: t := by
        cases acc with
        | nil => simp at h100
        | cons a t => exact ⟨a, t, rfl⟩
      have h99 : t.length = 99 := by simpa using h100
      rw [hadd, show ((a :: t) ++ [e]).tail = t ++ [e] from rfl,
        ih (t ++ [e]) (by simp [h99])]
      have e1 : (t ++ [e]).length + rest.length - 100 = rest.length := by
        simp only [List.length_append, List.length_cons, List.length_nil, h99]
        omega
      have e2 : (a :: t).length + (e :: rest).length - 100 = rest.length + 1 := by
        simp only [List.length_cons, h99]
        omega
      rw [e1, e2, List.cons_append, List.drop_succ_cons]
      simp [List.append_assoc]
    · have hadd : addToRecentEvents acc e = acc ++ [e] := by
        unfold addToRecentEvents
        rw [if_neg hlen]
      have hle : (acc ++ [e]).length ≤ 100 := by
        simp only [List.length_append, List.length_cons, List.length_nil] at hlen ⊢
        omega
      rw [hadd, ih (acc ++ [e]) hle]
      have e3 : (acc ++ [e]).length + rest.length = acc.length + (e :: rest).length := by
        simp only [List.length_append, List.length_cons, List.length_nil]
        omega
      rw [e3]
      simp [List.append_assoc]

theorem addToRecentEventsMap_foldl (evs : List DetectionEvent) :
    ∀ (m : String → List DetectionEvent) (camera : String),
      (evs.foldl addToRecentEventsMap m) camera =
        (evs.filter (fun e => e.cameraId == camera)).foldl addToRecentEvents (m camera) := by
  induction evs with
  | nil => intro m camera; rfl
  | cons e rest ih =>
    intro m camera
    rw [List.foldl_cons, ih]
    by_cases hc : e.cameraId = camera
    · have hm : (addToRecentEventsMap m e) camera = addToRecentEvents (m camera) e := by
        simp [addToRecentEventsMap, hc]
      rw [hm]
      simp [List.filter_cons, hc]
    · have hm : (addToRecentEventsMap m e) camera = m camera := by
        simp only [addToRecentEventsMap]
        rw [if_neg (fun hcam => hc hcam.symm)]
      rw [hm]
      simp [List.filter_cons, hc]

/-! ## Claim theorems -/

/-- C1 (code_bug): the spec requires that a rule with `cooldownMinutes = N > 0`
that triggered at t0 is skipped, before its conditions are evaluated, for
every event processed at a time in (t0, t0 + N minutes). The code's gate is
inverted (`isAfter(now, cooldownEnd)` instead of `isBefore`): at t = 1 minute
after triggering at t0 = 0, a rule with a 5-minute cooldown has its conditions
evaluated and triggers again. -/
theorem c1_cooldown_window_not_enforced :
    (0 : ℤ) < 60000 ∧ (60000 : ℤ) < 0 + 5 * 60000 ∧
    cooldownRule.cooldownMinutes = 5 ∧ triggeredState.lastTriggered cooldownRule.id = some 0 ∧
    evaluateRule triggeredState cooldownRule (buildEventContext event85 []) 60000 =
      .ok { triggered := true, conditionsMet := [true], lastTriggered := some 0,
            cooldownRemaining := none } := by
  refine ⟨by norm_num, by norm_num, rfl, rfl, ?_⟩
  simp [evaluateRule, triggeredState, cooldownRule, evaluateRuleConditions, evaluateCondition,
    evaluateConfidenceCondition, confGteCond, buildEventContext, event85,
    List.mapM.loop, exceptOkBind]
  norm_num

/-- C4 (counterexample): the claim says an enabled rule whose cooldown has
elapsed triggers when all its conditions hold. At t = 10 minutes, the
5-minute cooldown of a rule last triggered at t0 = 0 has elapsed and its
single condition holds in isolation, yet the code skips the rule
(`triggered = false`, conditions not evaluated) because its cooldown gate is
inverted. -/
theorem c4_counterexample :
    (0 : ℤ) + 5 * 60000 < 600000 ∧
    evaluateCondition confGteCond (buildEventContext event85 []) 600000 = .ok true ∧
    evaluateRule triggeredState cooldownRule (buildEventContext event85 []) 600000 =
      .ok { triggered := false, conditionsMet := [false], lastTriggered := some 0,
            cooldownRemaining := some (-5) } := by
  refine ⟨by norm_num, ?_, ?_⟩
  · simp [evaluateCondition, evaluateConfidenceCondition, confGteCond, buildEventContext, event85]
    norm_num
  · simp [evaluateRule, triggeredState, cooldownRule]
    norm_num
    rw [show (-5 : ℚ) = ((-5 : ℤ) : ℚ) by norm_num]
    exact Int.ceil_intCast _

/-- C2 (counterexample): the claim says an exception in one condition is
caught, the condition treated as false, and the remaining rules still
evaluated for the same event. In the code the exception propagates to the
per-event catch: with `throwRule` (whose time condition throws on an invalid
timestamp) listed before `confRule`, processing the event triggers nothing
and logs the error, even though `confRule` evaluated in isolation on the very
same event triggers. -/
theorem c2_counterexample :
    (processEvent emptyState [throwRule, confRule] invalidTsEvent [] 0).triggers = [] ∧
    (processEvent emptyState [throwRule, confRule] invalidTsEvent [] 0).errorLogged =
      some "RangeError: Invalid time value" ∧
    evaluateRule emptyState confRule (buildEventContext invalidTsEvent []) 0 =
      .ok { triggered := true, conditionsMet := [true], lastTriggered := none,
            cooldownRemaining := none } := by
  refine ⟨?_, ?_, ?_⟩
  · simp [processEvent, processRules, buildEventContext, throwRule, invalidTsEvent, emptyState,
      evaluateRule, evaluateRuleConditions, evaluateCondition, evaluateTimeCondition,
      List.mapM.loop, exceptOkBind, exceptErrBind]
  · simp [processEvent, processRules, buildEventContext, throwRule, invalidTsEvent, emptyState,
      evaluateRule, evaluateRuleConditions, evaluateCondition, evaluateTimeCondition,
      List.mapM.loop, exceptOkBind, exceptErrBind]
  · simp [evaluateRule, emptyState, confRule, evaluateRuleConditions, evaluateCondition,
      evaluateConfidenceCondition, confGteCond, buildEventContext, invalidTsEvent,
      List.mapM.loop, exceptOkBind]
    norm_num

/-- C7: for every camera, after any sequence of appends into the per-camera
history starting from a fresh engine, the camera's list is exactly the
suffix of its own events past `length - 100` (so insertion order is kept, the
oldest entries are evicted first, more than 100 appends leave exactly the 100
most recent) and its length never exceeds 100. -/
theorem c7_history_bound (evs : List DetectionEvent) (camera : String) :
    (evs.foldl addToRecentEventsMap emptyState.recentEvents) camera =
      (evs.filter (fun e => e.cameraId == camera)).drop
        ((evs.filter (fun e => e.cameraId == camera)).length - 100) ∧
    ((evs.foldl addToRecentEventsMap emptyState.recentEvents) camera).length ≤ 100 := by
  have hmain : (evs.foldl addToRecentEventsMap emptyState.recentEvents) camera =
      (evs.filter (fun e => e.cameraId == camera)).drop
        ((evs.filter (fun e => e.cameraId == camera)).length - 100) := by
    rw [addToRecentEventsMap_foldl]
    have hempty : emptyState.recentEvents camera = [] := rfl
    rw [hempty, addToRecentEvents_foldl _ [] (by simp)]
    simp
  refine ⟨hmain, ?_⟩
  rw [hmain, List.length_drop]
  omega

/-- C10: passing `options.k = 0` or `options.similarityThreshold = 0` to
`classify` is indistinguishable from omitting the option (JS falsy fallback
`options.x || this.x`), so a caller can never request a per-call threshold of
exactly 0 or a per-call k of 0; a fresh instance's defaults are k = 5 and
similarityThreshold = 0.7. -/
theorem c10_falsy_options_fall_back (st : KNNState) (samples : List TrainingSample)
    (q : List ℝ) (optK : Option ℕ) (optTh : Option ℝ) (u : Bool) :
    classify st samples q (some 0) optTh u = classify st samples q none optTh u ∧
    classify st samples q optK (some 0) u = classify st samples q optK none u ∧
    KNNState.default.k = 5 ∧ KNNState.default.similarityThreshold = 7 / 10 := by
  refine ⟨?_, ?_, rfl, rfl⟩
  · simp [classify, jsOrNat]
  · simp [classify, jsOrReal]

theorem jsSplitAux_no_sep (c : Char) :
    ∀ l : List Char, c ∉ l → jsSplitAux c l = [l] := by
  intro l
  induction l with
  | nil => intro _; rfl
  | cons x xs ih =>
    intro h
    have hx : ¬ x = c := fun hxc => h (by simp [hxc])
    have hxs : c ∉ xs := fun hm => h (List.mem_cons_of_mem _ hm)
    simp only [jsSplitAux, if_neg hx, ih hxs]

theorem jsSplitAux_sep_append (c : Char) :
    ∀ (s e : List Char), c ∉ s → jsSplitAux c (s ++ c :: e) = s :: jsSplitAux c e := by
  intro s
  induction s with
  | nil =>
    intro e _
    simp [jsSplitAux]
  | cons x xs ih =>
    intro e h
    have hx : ¬ x = c := fun hxc => h (by simp [hxc])
    have hxs : c ∉ xs := fun hm => h (List.mem_cons_of_mem _ hm)
    simp only [List.cons_append, jsSplitAux, if_neg hx]
    have hrec := ih e hxs
    rw [show xs ++ c :: e = xs.append (c :: e) from rfl] at hrec
    rw [hrec]

theorem jsSplit_range (s e : String) (hs : '-' ∉ s.data) (he : '-' ∉ e.data) :
    jsSplit '-' (s ++ "-" ++ e) = [s, e] := by
  unfold jsSplit
  have hd : (s ++ "-" ++ e).data = s.data ++ '-' :: e.data := by
    show (s.data ++ ['-']) ++ e.data = _
    rw [List.append_assoc]
    rfl
  rw [hd, jsSplitAux_sep_append _ _ _ hs, jsSplitAux_no_sep _ _ he]
  rfl

theorem lexLtChars_iff :
    ∀ as bs : List Char, lexLtChars as bs = true ↔ List.Lex (· < ·) as bs := by
  intro as
  induction as with
  | nil =>
    intro bs
    cases bs with
    | nil =>
      simp only [lexLtChars, Bool.false_eq_true, false_iff]
      intro h
      nomatch h
    | cons b bs =>
      simp only [lexLtChars, true_iff]
      exact List.Lex.nil
  | cons a as ih =>
    intro bs
    cases bs with
    | nil =>
      simp only [lexLtChars, Bool.false_eq_true, false_iff]
      intro h
      nomatch h
    | cons b bs =>
      simp only [lexLtChars]
      by_cases h1 : a < b
      · simp only [if_pos h1, true_iff]
        exact List.Lex.rel h1
      · rw [if_neg h1]
        by_cases h2 : b < a
        · simp only [if_pos h2, Bool.false_eq_true, false_iff]
          intro h
          cases h with
          | cons htl => exact absurd h2 (lt_irrefl _)
          | rel hr => exact h1 hr
        · rw [if_neg h2, ih bs]
          have hab : a = b := le_antisymm (not_lt.mp h2) (not_lt.mp h1)
          subst hab
          constructor
          · exact fun h => List.Lex.cons h
          · intro h
            cases h with
            | cons htl => exact htl
            | rel hr => exact absurd hr h1

theorem jsStrLt_iff_lt (a b : String) : jsStrLt a b = true ↔ a < b := by
  rw [String.lt_iff_toList_lt]
  exact lexLtChars_iff a.data b.data

/-- C8: a time condition whose range string contains a dash holds iff
`start ≤ currentTime ≤ end` under lexicographic comparison of the "HH:mm"
strings (`jsStrLt` coincides with the string order, i.e. is lexicographic);
hence the midnight-spanning range "22:00-06:00" evaluated at 23:30 is false;
a range string without a dash matches only by exact string equality. -/
theorem c8_time_lexicographic (s e : String) (ms : ℤ)
    (hs : '-' ∉ s.data) (he : '-' ∉ e.data) :
    (evaluateTimeCondition { type := "time", timeRange := some (s ++ "-" ++ e) } (some ms) =
      .ok (jsStrLe s (formatHHMM ms) && jsStrLe (formatHHMM ms) e)) ∧
    (∀ tr : String, tr ≠ "" → '-' ∉ tr.data →
      evaluateTimeCondition { type := "time", timeRange := some tr } (some ms) =
        .ok (formatHHMM ms == tr)) ∧
    (∀ a b : String, jsStrLt a b = true ↔ a < b) ∧
    (evaluateTimeCondition { type := "time", timeRange := some "22:00-06:00" }
      (some 84600000) = .ok false) ∧
    formatHHMM 84600000 = "23:30" := by
  refine ⟨?_, ?_, jsStrLt_iff_lt, by decide, by decide⟩
  · have hne : (s ++ "-" ++ e) ≠ "" := by
      intro hempty
      have : '-' ∈ (s ++ "-" ++ e).data := by
        show '-' ∈ (s.data ++ ['-']) ++ e.data
        simp
      rw [hempty] at this
      simp at this
    have hcontains : (s ++ "-" ++ e).data.contains '-' = true := by
      show ((s.data ++ ['-']) ++ e.data).contains '-' = true
      simp
    simp only [evaluateTimeCondition, if_neg hne, hcontains, if_pos rfl, jsSplit_range s e hs he]
    rfl
  · intro tr htr hdash
    have hcontains : tr.data.contains '-' = false := by simpa using hdash
    simp only [evaluateTimeCondition, if_neg htr, hcontains]
    rfl

/-- C8 witness: lexicographic range check instantiated at the range
"09:00-17:30" and time 23:30 (false since "23:30" exceeds "17:30"). -/
theorem c8_time_lexicographic_witness :
    ('-' ∉ "09:00".data) ∧ ('-' ∉ "17:30".data) ∧
    evaluateTimeCondition { type := "time", timeRange := some ("09:00" ++ "-" ++ "17:30") }
      (some 84600000) =
      .ok (jsStrLe "09:00" (formatHHMM 84600000) && jsStrLe (formatHHMM 84600000) "17:30") :=
  ⟨by decide, by decide, (c8_time_lexicographic "09:00" "17:30" 84600000
    (by decide) (by decide)).1⟩

theorem div_jsOr1_bounds (dot n1 n2 : ℝ) (hn1 : 0 ≤ n1) (hn2 : 0 ≤ n2)
    (hcs : dot ^ 2 ≤ n1 * n2) :
    -1 ≤ dot / jsOr1 (Real.sqrt n1 * Real.sqrt n2) ∧
      dot / jsOr1 (Real.sqrt n1 * Real.sqrt n2) ≤ 1 := by
  set D := Real.sqrt n1 * Real.sqrt n2 with hD
  have hDnn : 0 ≤ D := mul_nonneg (Real.sqrt_nonneg _) (Real.sqrt_nonneg _)
  have hD2 : D ^ 2 = n1 * n2 := by
    rw [hD, mul_pow, Real.sq_sqrt hn1, Real.sq_sqrt hn2]
  by_cases hz : D = 0
  · have hdot : dot = 0 := by
      have hle : dot ^ 2 ≤ 0 := by
        rw [← hD2, hz] at hcs
        simpa using hcs
      nlinarith [sq_nonneg dot]
    rw [hdot]
    simp [jsOr1, hz]
  · have hDpos : 0 < D := lt_of_le_of_ne hDnn (Ne.symm hz)
    have habs : |dot| ≤ D := by
      have hsq : Real.sqrt (dot ^ 2) ≤ Real.sqrt (D ^ 2) := by
        apply Real.sqrt_le_sqrt
        rw [hD2]
        exact hcs
      rwa [Real.sqrt_sq_eq_abs, Real.sqrt_sq hDnn] at hsq
    have hj : jsOr1 D = D := by simp [jsOr1, hz]
    rw [hj]
    constructor
    · rw [le_div_iff₀ hDpos]
      have := (abs_le.mp habs).1
      linarith
    · rw [div_le_one hDpos]
      exact (abs_le.mp habs).2

theorem cosineVal_bounds (a b : List ℝ) : -1 ≤ cosineVal a b ∧ cosineVal a b ≤ 1 := by
  have hcs := Finset.sum_mul_sq_le_sq_mul_sq (Finset.range a.length)
    (fun i => a.getD i 0) (fun i => b.getD i 0)
  have ha2 : (∑ i ∈ Finset.range a.length, (fun i => a.getD i 0) i ^ 2) =
      ∑ i ∈ Finset.range a.length, a.getD i 0 * a.getD i 0 :=
    Finset.sum_congr rfl fun i _ => by ring
  have hb2 : (∑ i ∈ Finset.range a.length, (fun i => b.getD i 0) i ^ 2) =
      ∑ i ∈ Finset.range a.length, b.getD i 0 * b.getD i 0 :=
    Finset.sum_congr rfl fun i _ => by ring
  rw [ha2, hb2] at hcs
  have h1 : (0:ℝ) ≤ ∑ i ∈ Finset.range a.length, a.getD i 0 * a.getD i 0 :=
    Finset.sum_nonneg fun i _ => mul_self_nonneg _
  have h2 : (0:ℝ) ≤ ∑ i ∈ Finset.range a.length, b.getD i 0 * b.getD i 0 :=
    Finset.sum_nonneg fun i _ => mul_self_nonneg _
  have key := div_jsOr1_bounds _ _ _ h1 h2 hcs
  simpa [cosineVal] using key

theorem cosineVal_zero (a b : List ℝ)
    (h : (∀ x ∈ a, x = 0) ∨ (∀ x ∈ b, x = 0)) : cosineVal a b = 0 := by
  have hget : ∀ (l : List ℝ), (∀ x ∈ l, x = 0) → ∀ i, l.getD i 0 = 0 := by
    intro l hl i
    by_cases hi : i < l.length
    · rw [List.getD_eq_getElem l 0 hi]
      exact hl _ (List.getElem_mem hi)
    · exact List.getD_eq_default l 0 (le_of_not_lt hi)
  rcases h with ha | hb
  · have hdot : (∑ i ∈ Finset.range a.length, a.getD i 0 * b.getD i 0) = 0 :=
      Finset.sum_eq_zero fun i _ => by rw [hget a ha i, zero_mul]
    simp only [cosineVal]
    rw [hdot]
    exact zero_div _
  · have hdot : (∑ i ∈ Finset.range a.length, a.getD i 0 * b.getD i 0) = 0 :=
      Finset.sum_eq_zero fun i _ => by rw [hget b hb i, mul_zero]
    simp only [cosineVal]
    rw [hdot]
    exact zero_div _

/-- C9: on equal-length inputs `cosineSimilarity` succeeds and its value
always lies in [-1, 1]; when either input is the zero vector the `|| 1`
falsy-denominator guard makes the result exactly 0 (never NaN, never a
division by zero). -/
theorem c9_cosine_similarity_safety (a b : List ℝ) (h : a.length = b.length) :
    cosineSimilarity a b = .ok (cosineVal a b) ∧
    -1 ≤ cosineVal a b ∧ cosineVal a b ≤ 1 ∧
    (((∀ x ∈ a, x = 0) ∨ (∀ x ∈ b, x = 0)) → cosineVal a b = 0) :=
  ⟨by simp [cosineSimilarity, h], (cosineVal_bounds a b).1, (cosineVal_bounds a b).2,
    cosineVal_zero a b⟩

/-- C9 witness: the theorem instantiated at the orthonormal pair
([1,0], [0,1]), whose cosine similarity evaluates to 0. -/
theorem c9_cosine_similarity_safety_witness :
    List.length [(1:ℝ), 0] = List.length [(0:ℝ), 1] ∧
    cosineSimilarity [(1:ℝ), 0] [(0:ℝ), 1] = .ok (cosineVal [(1:ℝ), 0] [(0:ℝ), 1]) ∧
    (-1 ≤ cosineVal [(1:ℝ), 0] [(0:ℝ), 1] ∧ cosineVal [(1:ℝ), 0] [(0:ℝ), 1] ≤ 1) ∧
    cosineVal [(1:ℝ), 0] [(0:ℝ), 1] = 0 := by
  have hth := c9_cosine_similarity_safety [(1:ℝ), 0] [(0:ℝ), 1] rfl
  refine ⟨rfl, hth.1, ⟨hth.2.1, hth.2.2.1⟩, ?_⟩
  norm_num [cosineVal, jsOr1, Finset.sum_range_succ]

theorem euclideanVal_nonneg (a b : List ℝ) : 0 ≤ euclideanVal a b := Real.sqrt_nonneg _

/-- C3 (amended): for equal-dimension query and sample, the per-sample
similarity computed by `classify` lies in (0, 1] in the `useDistance` branch;
in the default branch it equals the raw cosine similarity and therefore lies
in [-1, 1] — it is NOT confined to (0, 1]. -/
theorem c3_amended_similarity_range (q emb : List ℝ) (lbl : String)
    (h : q.length = emb.length) :
    (∀ s, scoreSample true q { label := lbl, embedding := emb } = .ok s →
      0 < s.similarity ∧ s.similarity ≤ 1) ∧
    (∀ s, scoreSample false q { label := lbl, embedding := emb } = .ok s →
      s.similarity = cosineVal q emb ∧ -1 ≤ s.similarity ∧ s.similarity ≤ 1) := by
  constructor
  · intro s hs
    have heval : scoreSample true q { label := lbl, embedding := emb } =
        .ok { label := lbl, distance := euclideanVal q emb,
              similarity := 1 / (1 + euclideanVal q emb) } := by
      simp [scoreSample, euclideanDistance, h, exceptOkBind]
    rw [heval] at hs
    cases hs
    have hd : 0 ≤ euclideanVal q emb := euclideanVal_nonneg q emb
    constructor
    · have hpos : 0 < 1 + euclideanVal q emb := by linarith
      exact div_pos one_pos hpos
    · rw [div_le_one (by linarith)]
      linarith
  · intro s hs
    have heval : scoreSample false q { label := lbl, embedding := emb } =
        .ok { label := lbl, distance := 1 - cosineVal q emb,
              similarity := 1 - (1 - cosineVal q emb) } := by
      simp [scoreSample, cosineSimilarity, h, exceptOkMap, exceptOkBind]
    rw [heval] at hs
    cases hs
    have hsim : (1 : ℝ) - (1 - cosineVal q emb) = cosineVal q emb := by ring
    refine ⟨hsim, ?_, ?_⟩
    · rw [hsim]; exact (cosineVal_bounds q emb).1
    · rw [hsim]; exact (cosineVal_bounds q emb).2

/-- C3 (counterexample): with query [1,0] and sample [-1,0] in the cosine
branch, the computed similarity is -1, which is not in (0, 1]. -/
theorem c3_counterexample :
    scoreSample false [(1:ℝ), 0] { label := "s", embedding := [-1, 0] } =
      .ok { label := "s", distance := 2, similarity := -1 } ∧
    ¬ (0 < (-1 : ℝ) ∧ (-1 : ℝ) ≤ 1) := by
  constructor
  · have hcv : cosineVal [(1:ℝ), 0] [-1, 0] = -1 := by
      norm_num [cosineVal, jsOr1, Finset.sum_range_succ]
    simp [scoreSample, cosineSimilarity, hcv, exceptOkMap, exceptOkBind]
    norm_num
  · norm_num

/-- C3 witness: the amended range theorem instantiated at the query [1,0] and
the sample [3/5, 4/5], whose cosine-branch similarity evaluates to 3/5. -/
theorem c3_amended_witness :
    List.length [(1:ℝ), 0] = List.length [(3/5:ℝ), 4/5] ∧
    scoreSample false [(1:ℝ), 0] { label := "cat", embedding := [3/5, 4/5] } =
      .ok { label := "cat", distance := 1 - 3/5, similarity := 3/5 } ∧
    (-1 ≤ (3/5:ℝ) ∧ (3/5:ℝ) ≤ 1) := by
  have heval : scoreSample false [(1:ℝ), 0] { label := "cat", embedding := [3/5, 4/5] } =
      .ok { label := "cat", distance := 1 - 3/5, similarity := 3/5 } := by
    have hcv : cosineVal [(1:ℝ), 0] [3/5, 4/5] = 3/5 := by
      norm_num [cosineVal, jsOr1, Finset.sum_range_succ]
    simp [scoreSample, cosineSimilarity, hcv, exceptOkMap, exceptOkBind]
  have hth := (c3_amended_similarity_range [(1:ℝ), 0] [3/5, 4/5] "cat" rfl).2 _ heval
  exact ⟨rfl, heval, hth.2.1, hth.2.2⟩

theorem mapM_ok_length {α β : Type} (f : α → Except String β) :
    ∀ (l : List α) (bs : List β), l.mapM f = .ok bs → bs.length = l.length := by
  intro l
  induction l with
  | nil =>
    intro bs h
    rw [List.mapM_nil] at h
    cases h
    rfl
  | cons a l ih =>
    intro bs h
    rw [List.mapM_cons] at h
    cases hfa : f a with
    | error e =>
      rw [hfa, exceptErrBind] at h
      cases h
    | ok x =>
      rw [hfa, exceptOkBind] at h
      cases hl : l.mapM f with
      | error e =>
        rw [hl, exceptErrBind] at h
        cases h
      | ok xs =>
        rw [hl, exceptOkBind] at h
        cases h
        simp [ih xs hl]

theorem evaluateRule_no_skip (st : EngineState) (rule : Rule) (ctx : EventContext) (now : ℤ)
    (hgate : ¬ cooldownSkips st rule now) :
    evaluateRule st rule ctx now =
      evaluateRuleConditions rule ctx now (st.lastTriggered rule.id) := by
  unfold evaluateRule
  cases hlt : st.lastTriggered rule.id with
  | none => rfl
  | some lastTriggeredAt =>
    dsimp only
    by_cases hcd : 0 < rule.cooldownMinutes
    · rw [if_pos hcd]
      have hnotafter : ¬ (lastTriggeredAt + rule.cooldownMinutes * 60000 < now) := by
        intro hafter
        exact hgate ⟨lastTriggeredAt, hlt, hcd, hafter⟩
      rw [if_neg hnotafter]
    · rw [if_neg hcd]

/-- C4 (amended): for every enabled rule for which the code's cooldown gate
does not skip (in particular any rule with `cooldownMinutes = 0` or that has
never triggered) and whose conditions all evaluate without throwing,
processing the event emits the rule's trigger exactly once iff the
conditions list is non-empty and every condition evaluated true; an empty
conditions list or any false condition yields no trigger. -/
theorem c4_amended (st : EngineState) (rule : Rule) (ev : DetectionEvent)
    (db : List DetectionEvent) (now : ℤ) (bs : List Bool)
    (hgate : ¬ cooldownSkips st rule now)
    (hen : rule.enabled = true)
    (hconds : rule.conditions.mapM
      (fun c => evaluateCondition c (buildEventContext ev db) now) = .ok bs) :
    (processEvent st [rule] ev db now).triggers =
      (if rule.conditions ≠ [] ∧ (∀ b ∈ bs, b = true) then [rule.id] else []) ∧
    (processEvent st [rule] ev db now).errorLogged = none := by
  have heval : evaluateRule st rule (buildEventContext ev db) now =
      .ok { triggered := bs.all id && decide (0 < bs.length), conditionsMet := bs,
            lastTriggered := st.lastTriggered rule.id, cooldownRemaining := none } := by
    rw [evaluateRule_no_skip st rule _ now hgate]
    unfold evaluateRuleConditions
    rw [hconds, exceptOkBind]
  have hlen : bs.length = rule.conditions.length := mapM_ok_length _ _ _ hconds
  have hiff : (bs.all id && decide (0 < bs.length)) = true ↔
      (rule.conditions ≠ [] ∧ (∀ b ∈ bs, b = true)) := by
    rw [Bool.and_eq_true, List.all_eq_true, decide_eq_true_iff]
    constructor
    · intro ⟨hall, hpos⟩
      refine ⟨?_, fun b hb => hall b hb⟩
      intro hnil
      rw [hnil] at hlen
      simp only [List.length_nil] at hlen
      omega
    · intro ⟨hnil, hall⟩
      refine ⟨fun b hb => hall b hb, ?_⟩
      rw [hlen]
      exact List.length_pos.mpr hnil
  unfold processEvent processRules
  rw [hen]
  simp only [if_true]
  rw [heval]
  by_cases hc : rule.conditions ≠ [] ∧ (∀ b ∈ bs, b = true)
  · have ht : (bs.all id && decide (0 < bs.length)) = true := hiff.mpr hc
    simp only [ht, if_pos, if_true]
    rw [if_pos hc]
    exact ⟨rfl, rfl⟩
  · have ht : (bs.all id && decide (0 < bs.length)) = false := by
      rcases Bool.eq_false_or_eq_true (bs.all id && decide (0 < bs.length)) with h | h
      · exact absurd (hiff.mp h) hc
      · exact h
    simp only [ht, Bool.false_eq_true, if_false]
    rw [if_neg hc]
    exact ⟨rfl, rfl⟩

/-- C4 witness: `confRule` (cooldown 0, single confidence condition) on an
event with confidence 0.85 triggers exactly once. -/
theorem c4_amended_witness :
    (¬ cooldownSkips emptyState confRule 60000) ∧ confRule.enabled = true ∧
    confRule.conditions.mapM
      (fun c => evaluateCondition c (buildEventContext event85 []) 60000) = .ok [true] ∧
    (processEvent emptyState [confRule] event85 [] 60000).triggers = ["rc"] := by
  have hgate : ¬ cooldownSkips emptyState confRule 60000 := by
    rintro ⟨lt, hlt, -, -⟩
    simp [emptyState] at hlt
  have hconds : confRule.conditions.mapM
      (fun c => evaluateCondition c (buildEventContext event85 []) 60000) = .ok [true] := by
    simp [confRule, confGteCond, evaluateCondition, evaluateConfidenceCondition,
      buildEventContext, event85, List.mapM.loop, exceptOkBind]
    norm_num
  have hth := c4_amended emptyState confRule event85 [] 60000 [true] hgate rfl hconds
  refine ⟨hgate, rfl, hconds, ?_⟩
  rw [hth.1, if_pos]
  · rfl
  · exact ⟨by simp [confRule], by simp⟩

theorem processRules_recentEvents :
    ∀ (rules : List Rule) (st : EngineState) (ctx : EventContext) (now : ℤ),
      (processRules st rules ctx now).1.recentEvents = st.recentEvents := by
  intro rules
  induction rules with
  | nil => intro st ctx now; rfl
  | cons r rest ih =>
    intro st ctx now
    unfold processRules
    by_cases he : r.enabled
    · rw [he]
      simp only [if_true]
      cases hev : evaluateRule st r ctx now with
      | error e => rfl
      | ok evaluation =>
        cases ht : evaluation.triggered with
        | true =>
          simp only [ht, if_true]
          exact ih (recordTrigger st r now) ctx now
        | false =>
          simp only [ht, Bool.false_eq_true, if_false]
          exact ih st ctx now
    · have he' : r.enabled = false := Bool.eq_false_iff.mpr he
      rw [he']
      simp only [Bool.false_eq_true, if_false]
      exact ih st ctx now

theorem processRules_cons (st : EngineState) (r : Rule) (rest : List Rule)
    (ctx : EventContext) (now : ℤ) :
    processRules st (r :: rest) ctx now =
      (if r.enabled then
        match evaluateRule st r ctx now with
        | .error e => (st, [], some e)
        | .ok evaluation =>
          if evaluation.triggered then
            ((processRules (recordTrigger st r now) rest ctx now).1,
             r.id :: (processRules (recordTrigger st r now) rest ctx now).2.1,
             (processRules (recordTrigger st r now) rest ctx now).2.2)
          else processRules st rest ctx now
      else processRules st rest ctx now) := rfl

theorem processRules_append :
    ∀ (pre : List Rule) (rest : List Rule) (st : EngineState) (ctx : EventContext) (now : ℤ)
      (st₁ : EngineState) (trgs : List String),
      processRules st pre ctx now = (st₁, trgs, none) →
      processRules st (pre ++ rest) ctx now =
        ((processRules st₁ rest ctx now).1,
         trgs ++ (processRules st₁ rest ctx now).2.1,
         (processRules st₁ rest ctx now).2.2) := by
  intro pre
  induction pre with
  | nil =>
    intro rest st ctx now st₁ trgs h
    simp only [processRules, Prod.mk.injEq] at h
    obtain ⟨h1, h2, -⟩ := h
    subst h1
    subst h2
    rfl
  | cons r pre ih =>
    intro rest st ctx now st₁ trgs h
    rw [List.cons_append]
    rw [processRules_cons] at h
    rw [processRules_cons]
    by_cases he : r.enabled = true
    · rw [he] at h ⊢
      simp only [if_true] at h ⊢
      cases hev : evaluateRule st r ctx now with
      | error e =>
        rw [hev] at h
        simp at h
      | ok evaluation =>
        rw [hev] at h
        dsimp only at h ⊢
        cases ht : evaluation.triggered with
        | true =>
          simp only [ht, if_true] at h ⊢
          simp only [Prod.mk.injEq] at h
          obtain ⟨h1, h2, h3⟩ := h
          have hpre : processRules (recordTrigger st r now) pre ctx now =
              ((processRules (recordTrigger st r now) pre ctx now).1,
               (processRules (recordTrigger st r now) pre ctx now).2.1, none) := by
            rw [← h3]
          rw [ih rest (recordTrigger st r now) ctx now _ _ hpre]
          rw [← h1, ← h2]
          simp [List.cons_append]
        | false =>
          simp only [ht, Bool.false_eq_true, if_false] at h ⊢
          exact ih rest st ctx now st₁ trgs h
    · have he' : r.enabled = false := Bool.eq_false_iff.mpr he
      rw [he'] at h ⊢
      simp only [Bool.false_eq_true, if_false] at h ⊢
      exact ih rest st ctx now st₁ trgs h

/-- C2 (amended): an exception raised while evaluating a condition is caught
only at the whole-event level: it aborts evaluation of the remaining rules
for that event and skips the history append, but `processEvent` returns
normally (error merely logged) with the already-processed rules' triggers and
state retained, so subsequent events are processed normally. -/
theorem c2_amended (st : EngineState) (pre post : List Rule) (rule : Rule)
    (ev : DetectionEvent) (db : List DetectionEvent) (now : ℤ)
    (st₁ : EngineState) (trgs : List String) (e : String)
    (hpre : processRules st pre (buildEventContext ev db) now = (st₁, trgs, none))
    (hen : rule.enabled = true)
    (herr : evaluateRule st₁ rule (buildEventContext ev db) now = .error e) :
    processEvent st (pre ++ rule :: post) ev db now =
      { state := st₁, triggers := trgs, errorLogged := some e } ∧
    st₁.recentEvents = st.recentEvents := by
  have hstep : processRules st₁ (rule :: post) (buildEventContext ev db) now =
      (st₁, [], some e) := by
    unfold processRules
    rw [hen]
    simp only [if_true]
    rw [herr]
  have happ := processRules_append pre (rule :: post) st (buildEventContext ev db) now
    st₁ trgs hpre
  rw [hstep] at happ
  constructor
  · simp only [processEvent]
    rw [happ]
    simp
  · have := processRules_recentEvents pre st (buildEventContext ev db) now
    rw [hpre] at this
    exact this

/-- C2 witness: the amended containment applied with no preceding rules, the
throwing time-condition rule, and one following rule: the error is logged,
nothing triggers, and the state (including history) is unchanged. -/
theorem c2_amended_witness :
    evaluateRule emptyState throwRule (buildEventContext invalidTsEvent []) 0 =
      .error "RangeError: Invalid time value" ∧
    processEvent emptyState ([] ++ throwRule :: [confRule]) invalidTsEvent [] 0 =
      { state := emptyState, triggers := [],
        errorLogged := some "RangeError: Invalid time value" } := by
  have herr : evaluateRule emptyState throwRule (buildEventContext invalidTsEvent []) 0 =
      .error "RangeError: Invalid time value" := by
    simp [evaluateRule, emptyState, throwRule, evaluateRuleConditions, evaluateCondition,
      evaluateTimeCondition, buildEventContext, invalidTsEvent,
      List.mapM.loop, exceptOkBind, exceptErrBind]
  have hth := c2_amended emptyState [] [confRule] throwRule invalidTsEvent [] 0
    emptyState [] "RangeError: Invalid time value" rfl rfl herr
  exact ⟨herr, hth.1⟩

theorem jsOrNat_pos (optK : Option ℕ) (d : ℕ) (hd : 0 < d) : 0 < jsOrNat optK d := by
  cases optK with
  | none => simpa [jsOrNat] using hd
  | some n =>
    by_cases hn : n = 0
    · simpa [jsOrNat, hn] using hd
    · simp only [jsOrNat, if_neg hn]
      omega

/-- C5: with a valid per-sample scoring pass (equal dimensions) and a
positive configured k, `classify` succeeds, and returns "no classification"
(`none`) exactly when the training-sample set is empty or the best-matching
(sorted-first) neighbor's similarity is strictly below the resolved
similarity threshold; every other successful run returns a result. -/
theorem c5_decline_gate (st : KNNState) (samples : List TrainingSample) (q : List ℝ)
    (optK : Option ℕ) (optTh : Option ℝ) (u : Bool) (ds : List Scored)
    (hk : 0 < st.k)
    (hds : samples.mapM (scoreSample u q) = .ok ds) :
    (∃ v, classify st samples q optK optTh u = .ok v) ∧
    (classify st samples q optK optTh u = .ok none ↔
      (samples = [] ∨ ∃ b bs, sortByDistance ds = b :: bs ∧
        b.similarity < jsOrReal optTh st.similarityThreshold)) := by
  by_cases hempty : samples.length = 0
  · have hsamp : samples = [] := List.length_eq_zero.mp hempty
    have hcl : classify st samples q optK optTh u = .ok none := by
      simp only [classify]
      rw [if_pos hempty]
    rw [hcl]
    exact ⟨⟨none, rfl⟩, ⟨fun _ => Or.inl hsamp, fun _ => rfl⟩⟩
  · have hlen : ds.length = samples.length := mapM_ok_length _ _ _ hds
    have hslen : (sortByDistance ds).length = ds.length :=
      (List.perm_insertionSort _ ds).length_eq
    have hsort_ne : sortByDistance ds ≠ [] := by
      intro h0
      rw [h0] at hslen
      simp only [List.length_nil] at hslen
      exact hempty (by omega)
    obtain ⟨b, bs, hsorted⟩ := List.exists_cons_of_ne_nil hsort_ne
    have hkpos : 0 < jsOrNat optK st.k := jsOrNat_pos optK st.k hk
    obtain ⟨k', hk'⟩ : ∃ k', jsOrNat optK st.k = k' + 1 :=
      ⟨_, (Nat.succ_pred_eq_of_pos hkpos).symm⟩
    have htake : (sortByDistance ds).take (jsOrNat optK st.k) = b :: bs.take k' := by
      rw [hsorted, hk', List.take_succ_cons]
    simp only [classify]
    rw [if_neg hempty, hds, exceptOkBind, htake]
    dsimp only
    by_cases hth : b.similarity < jsOrReal optTh st.similarityThreshold
    · rw [if_pos hth]
      exact ⟨⟨none, rfl⟩, ⟨fun _ => Or.inr ⟨b, bs, hsorted, hth⟩, fun _ => rfl⟩⟩
    · rw [if_neg hth]
      refine ⟨⟨some _, rfl⟩, ⟨fun hco => ?_, fun hor => ?_⟩⟩
      · simp at hco
      · rcases hor with hsamp | ⟨b', bs', hsorted', hth'⟩
        · rw [hsamp] at hempty
          simp at hempty
        · rw [hsorted] at hsorted'
          have hb : b = b' := (List.cons.injEq _ _ _ _).mp hsorted' |>.1
          rw [← hb] at hth'
          exact absurd hth' hth

/-- C5 witness: one "cat" sample at cosine similarity 3/5 against the default
threshold 0.7 makes `classify` decline with `none` even though a sample
exists. -/
theorem c5_decline_gate_witness :
    0 < KNNState.default.k ∧
    ([{ label := "cat", embedding := [3/5, 4/5] }] : List TrainingSample).mapM
      (scoreSample false [(1:ℝ), 0]) =
      .ok [{ label := "cat", distance := 1 - 3/5, similarity := 3/5 }] ∧
    classify KNNState.default [{ label := "cat", embedding := [3/5, 4/5] }]
      [(1:ℝ), 0] none none false = .ok none := by
  have hk : 0 < KNNState.default.k := by decide
  have hscore : scoreSample false [(1:ℝ), 0] { label := "cat", embedding := [3/5, 4/5] } =
      .ok { label := "cat", distance := 1 - 3/5, similarity := 3/5 } := by
    have hcv : cosineVal [(1:ℝ), 0] [3/5, 4/5] = 3/5 := by
      norm_num [cosineVal, jsOr1, Finset.sum_range_succ]
    simp [scoreSample, cosineSimilarity, hcv, exceptOkMap, exceptOkBind]
  have hds : ([{ label := "cat", embedding := [3/5, 4/5] }] : List TrainingSample).mapM
      (scoreSample false [(1:ℝ), 0]) =
      .ok [{ label := "cat", distance := 1 - 3/5, similarity := 3/5 }] := by
    simp [List.mapM, List.mapM.loop, hscore, exceptOkBind]
  have hth := c5_decline_gate KNNState.default
    [{ label := "cat", embedding := [3/5, 4/5] }] [(1:ℝ), 0] none none false
    [{ label := "cat", distance := 1 - 3/5, similarity := 3/5 }] hk hds
  refine ⟨hk, hds, hth.2.mpr (Or.inr ⟨_, [], rfl, ?_⟩)⟩
  show (3/5 : ℝ) < jsOrReal none KNNState.default.similarityThreshold
  rw [show jsOrReal none KNNState.default.similarityThreshold = 7/10 from rfl]
  norm_num

theorem distinctLabels_foldl_mem :
    ∀ (ns : List Scored) (acc : List String) (l : String),
      l ∈ ns.foldl (fun acc n => if n.label ∈ acc then acc else acc ++ [n.label]) acc ↔
        l ∈ acc ∨ ∃ x ∈ ns, x.label = l := by
  intro ns
  induction ns with
  | nil => intro acc l; simp
  | cons n ns ih =>
    intro acc l
    rw [List.foldl_cons, ih]
    by_cases hm : n.label ∈ acc
    · rw [if_pos hm]
      constructor
      · rintro (h | ⟨x, hx, hl⟩)
        · exact Or.inl h
        · exact Or.inr ⟨x, List.mem_cons_of_mem _ hx, hl⟩
      · rintro (h | ⟨x, hx, hl⟩)
        · exact Or.inl h
        · rcases List.mem_cons.mp hx with rfl | hx'
          · exact Or.inl (hl ▸ hm)
          · exact Or.inr ⟨x, hx', hl⟩
    · rw [if_neg hm]
      simp only [List.mem_append, List.mem_cons, List.not_mem_nil, or_false]
      constructor
      · rintro ((h | rfl) | ⟨x, hx, hl⟩)
        · exact Or.inl h
        · exact Or.inr ⟨n, Or.inl rfl, rfl⟩
        · exact Or.inr ⟨x, Or.inr hx, hl⟩
      · rintro (h | ⟨x, hx | hx, hl⟩)
        · exact Or.inl (Or.inl h)
        · subst hx
          exact Or.inl (Or.inr hl.symm)
        · exact Or.inr ⟨x, hx, hl⟩

theorem mem_distinctLabels (ns : List Scored) (l : String) :
    l ∈ distinctLabels ns ↔ ∃ x ∈ ns, x.label = l := by
  rw [distinctLabels, distinctLabels_foldl_mem]
  simp

theorem distinctLabels_foldl_nodup :
    ∀ (ns : List Scored) (acc : List String), acc.Nodup →
      (ns.foldl (fun acc n => if n.label ∈ acc then acc else acc ++ [n.label]) acc).Nodup := by
  intro ns
  induction ns with
  | nil => intro acc h; exact h
  | cons n ns ih =>
    intro acc h
    rw [List.foldl_cons]
    by_cases hm : n.label ∈ acc
    · rw [if_pos hm]
      exact ih acc h
    · rw [if_neg hm]
      refine ih _ ?_
      rw [List.nodup_append]
      exact ⟨h, List.nodup_singleton _, by simpa using hm⟩

theorem distinctLabels_nodup (ns : List Scored) : (distinctLabels ns).Nodup :=
  distinctLabels_foldl_nodup ns [] List.nodup_nil

theorem distinctLabels_concat (ns : List Scored) (n : Scored) :
    distinctLabels (ns ++ [n]) =
      if n.label ∈ distinctLabels ns then distinctLabels ns
      else distinctLabels ns ++ [n.label] := by
  rw [distinctLabels, List.foldl_append]
  rfl

theorem labelCount_concat (ns : List Scored) (n : Scored) (l : String) :
    labelCount (ns ++ [n]) l = labelCount ns l + (if n.label = l then 1 else 0) := by
  rw [labelCount, labelCount, List.filter_append]
  by_cases h : n.label = l <;> simp [h]

theorem labelTotalSim_concat (ns : List Scored) (n : Scored) (l : String) :
    labelTotalSim (ns ++ [n]) l =
      labelTotalSim ns l + (if n.label = l then n.similarity else 0) := by
  rw [labelTotalSim, labelTotalSim, List.filter_append, List.map_append, List.sum_append]
  by_cases h : n.label = l <;> simp [h]

theorem labelCount_eq_zero (ns : List Scored) (l : String)
    (h : l ∉ distinctLabels ns) : labelCount ns l = 0 := by
  rw [mem_distinctLabels] at h
  push_neg at h
  rw [labelCount, List.length_eq_zero]
  rw [List.filter_eq_nil_iff]
  intro x hx
  simpa using h x hx

theorem labelTotalSim_eq_zero (ns : List Scored) (l : String)
    (h : l ∉ distinctLabels ns) : labelTotalSim ns l = 0 := by
  rw [mem_distinctLabels] at h
  push_neg at h
  rw [labelTotalSim]
  have hfil : ns.filter (fun n => n.label = l) = [] := by
    rw [List.filter_eq_nil_iff]
    intro x hx
    simpa using h x hx
  rw [hfil]
  simp

theorem updateVote_notmem :
    ∀ (V : List (String × ℕ × ℝ)) (n : Scored),
      n.label ∉ V.map (fun v => v.1) →
      updateVote V n = V ++ [(n.label, 1, n.similarity)] := by
  intro V
  induction V with
  | nil => intro n _; rfl
  | cons v V ih =>
    intro n h
    obtain ⟨l, c, s⟩ := v
    simp only [List.map_cons, List.mem_cons] at h
    push_neg at h
    simp only [updateVote, if_neg h.1]
    rw [ih n h.2]
    simp

theorem updateVote_mem (n : Scored) :
    ∀ (dl : List String) (f : String → ℕ × ℝ),
      dl.Nodup → n.label ∈ dl →
      updateVote (dl.map (fun l => (l, f l))) n =
        dl.map (fun l =>
          (l, (if l = n.label then (f l).1 + 1 else (f l).1,
               if l = n.label then (f l).2 + n.similarity else (f l).2))) := by
  intro dl
  induction dl with
  | nil =>
    intro f _ hm
    simp at hm
  | cons d dl ih =>
    intro f hnd hm
    simp only [List.map_cons]
    by_cases hd : n.label = d
    · simp only [updateVote, if_pos hd]
      subst hd
      rw [if_pos rfl]
      have hd_notin : n.label ∉ dl := (List.nodup_cons.mp hnd).1
      have hmap : dl.map (fun l => (l, f l)) = dl.map (fun l =>
          (l, (if l = n.label then (f l).1 + 1 else (f l).1,
               if l = n.label then (f l).2 + n.similarity else (f l).2))) := by
        apply List.map_congr_left
        intro l hl
        have hne : l ≠ n.label := fun he => hd_notin (he ▸ hl)
        rw [if_neg hne, if_neg hne]
      rw [← hmap]
      simp
    · simp only [updateVote, if_neg hd]
      have hm' : n.label ∈ dl := by
        rcases List.mem_cons.mp hm with h | h
        · exact absurd h hd
        · exact h
      rw [ih f (List.nodup_cons.mp hnd).2 hm']
      have hdn : ¬ d = n.label := fun he => hd he.symm
      rw [if_neg hdn, if_neg hdn]

theorem buildVotes_eq (ns : List Scored) :
    buildVotes ns = (distinctLabels ns).map
      (fun l => (l, labelCount ns l, labelTotalSim ns l)) := by
  induction ns using List.reverseRecOn with
  | nil => rfl
  | append_singleton ns n ih =>
    have hstep : buildVotes (ns ++ [n]) = updateVote (buildVotes ns) n := by
      rw [buildVotes, buildVotes, List.foldl_append, List.foldl_cons, List.foldl_nil]
    rw [hstep, ih, distinctLabels_concat]
    by_cases hm : n.label ∈ distinctLabels ns
    · rw [if_pos hm]
      rw [updateVote_mem n (distinctLabels ns)
        (fun l => (labelCount ns l, labelTotalSim ns l)) (distinctLabels_nodup ns) hm]
      apply List.map_congr_left
      intro l hl
      by_cases he : l = n.label
      · have hnl : n.label = l := he.symm
        rw [labelCount_concat, labelTotalSim_concat, if_pos he, if_pos he,
          if_pos hnl, if_pos hnl]
      · have hnl : ¬ n.label = l := fun h => he h.symm
        rw [labelCount_concat, labelTotalSim_concat, if_neg he, if_neg he,
          if_neg hnl, if_neg hnl]
        simp
    · rw [if_neg hm]
      rw [updateVote_notmem _ n (by simpa using hm)]
      rw [List.map_append]
      congr 1
      · apply List.map_congr_left
        intro l hl
        have hnl : ¬ n.label = l := fun h => hm (h ▸ hl)
        rw [labelCount_concat, labelTotalSim_concat, if_neg hnl, if_neg hnl]
        simp
      · rw [List.map_singleton]
        rw [labelCount_concat, labelTotalSim_concat, if_pos rfl, if_pos rfl,
          labelCount_eq_zero ns n.label hm, labelTotalSim_eq_zero ns n.label hm]
        simp

theorem voteFold_seed_irrelevant :
    ∀ (votes : List (String × ℕ × ℝ)) (s₁ s₂ : String × ℝ × ℕ),
      (∃ v ∈ votes, s₁.2.1 < voteScore v) → (∃ v ∈ votes, s₂.2.1 < voteScore v) →
      votes.foldl voteStep s₁ = votes.foldl voteStep s₂ := by
  intro votes
  induction votes with
  | nil =>
    intro s₁ s₂ h₁ _
    simp at h₁
  | cons v vs ih =>
    intro s₁ s₂ h₁ h₂
    rw [List.foldl_cons, List.foldl_cons]
    by_cases hs₁ : s₁.2.1 < voteScore v
    · rw [voteStep, if_pos hs₁]
      by_cases hs₂ : s₂.2.1 < voteScore v
      · rw [voteStep, if_pos hs₂]
      · rw [voteStep, if_neg hs₂]
        obtain ⟨w, hw, hws⟩ := h₂
        rcases List.mem_cons.mp hw with rfl | hw'
        · exact absurd hws hs₂
        · exact ih (v.1, voteScore v, v.2.1) s₂
            ⟨w, hw', lt_of_le_of_lt (not_lt.mp hs₂) hws⟩ ⟨w, hw', hws⟩
    · rw [voteStep, if_neg hs₁]
      by_cases hs₂ : s₂.2.1 < voteScore v
      · rw [voteStep, if_pos hs₂]
        obtain ⟨w, hw, hws⟩ := h₁
        rcases List.mem_cons.mp hw with rfl | hw'
        · exact absurd hws hs₁
        · exact ih s₁ (v.1, voteScore v, v.2.1)
            ⟨w, hw', hws⟩ ⟨w, hw', lt_of_le_of_lt (not_lt.mp hs₁) hws⟩
      · rw [voteStep, if_neg hs₂]
        obtain ⟨w₁, hw₁, hws₁⟩ := h₁
        obtain ⟨w₂, hw₂, hws₂⟩ := h₂
        rcases List.mem_cons.mp hw₁ with rfl | hw₁'
        · exact absurd hws₁ hs₁
        · rcases List.mem_cons.mp hw₂ with rfl | hw₂'
          · exact absurd hws₂ hs₂
          · exact ih s₁ s₂ ⟨w₁, hw₁', hws₁⟩ ⟨w₂, hw₂', hws₂⟩

theorem pickBest_cons (v₀ : String × ℕ × ℝ) (vs : List (String × ℕ × ℝ))
    (h : ∃ w ∈ v₀ :: vs, -1 < voteScore w) :
    pickBest (v₀ :: vs) = vs.foldl voteStep (v₀.1, voteScore v₀, v₀.2.1) := by
  rw [pickBest, List.foldl_cons]
  by_cases h0 : ((("", -1, 0) : String × ℝ × ℕ)).2.1 < voteScore v₀
  · rw [voteStep, if_pos h0]
  · rw [voteStep, if_neg h0]
    obtain ⟨w, hw, hws⟩ := h
    rcases List.mem_cons.mp hw with rfl | hw'
    · exact absurd hws h0
    · exact voteFold_seed_irrelevant vs _ _ ⟨w, hw', hws⟩
        ⟨w, hw', lt_of_le_of_lt (not_lt.mp h0) hws⟩

theorem voteFold_map (ns : List Scored) :
    ∀ (ls : List String) (b : String),
      (ls.map (fun l => (l, labelCount ns l, labelTotalSim ns l))).foldl voteStep
          (b, claimScore ns b, labelCount ns b) =
        (ls.foldl (fun best next =>
            if claimScore ns best < claimScore ns next then next else best) b,
         claimScore ns (ls.foldl (fun best next =>
            if claimScore ns best < claimScore ns next then next else best) b),
         labelCount ns (ls.foldl (fun best next =>
            if claimScore ns best < claimScore ns next then next else best) b)) := by
  intro ls
  induction ls with
  | nil => intro b; rfl
  | cons l ls ih =>
    intro b
    rw [List.map_cons, List.foldl_cons, List.foldl_cons]
    have hv : voteScore (l, labelCount ns l, labelTotalSim ns l) = claimScore ns l := rfl
    by_cases hc : claimScore ns b < claimScore ns l
    · rw [voteStep]
      rw [if_pos (by rw [hv]; exact hc)]
      rw [if_pos hc]
      exact ih l
    · rw [voteStep]
      rw [if_neg (by rw [hv]; exact hc)]
      rw [if_neg hc]
      exact ih b

/-- C6 (amended): when `classify` reaches the voting stage (non-empty
samples, valid scoring, positive k, threshold gate passed) AND some label's
score exceeds the fold's -1 sentinel, the label whose score (vote count
times average similarity) is highest wins, ties broken in favor of the label
first encountered in neighbor rank order, and the returned confidence is
min(avgSimilarityOfWinner * (winnerVoteCount / k), 1). (Without the sentinel
condition the code can instead return the empty-string label; see the
counterexample.) -/
theorem c6_amended (st : KNNState) (samples : List TrainingSample) (q : List ℝ)
    (optK : Option ℕ) (optTh : Option ℝ) (u : Bool) (ds : List Scored)
    (neighborsList : List Scored)
    (hk : 0 < st.k)
    (hds : samples.mapM (scoreSample u q) = .ok ds)
    (hne : ¬ samples.length = 0)
    (hnb : neighborsList = (sortByDistance ds).take (jsOrNat optK st.k))
    (hgate : ∀ b, (sortByDistance ds).head? = some b →
      ¬ b.similarity < jsOrReal optTh st.similarityThreshold)
    (hscore : ∃ l ∈ distinctLabels neighborsList, -1 < claimScore neighborsList l) :
    ∃ r w, classify st samples q optK optTh u = .ok (some r) ∧
      claimWinner neighborsList = some w ∧
      r.label = w ∧
      r.confidence = min (labelAvgSim neighborsList w *
        ((labelCount neighborsList w : ℝ) / ((jsOrNat optK st.k : ℕ) : ℝ))) 1 := by
  have hlen : ds.length = samples.length := mapM_ok_length _ _ _ hds
  have hslen : (sortByDistance ds).length = ds.length :=
    (List.perm_insertionSort _ ds).length_eq
  have hsort_ne : sortByDistance ds ≠ [] := by
    intro h0
    rw [h0] at hslen
    simp only [List.length_nil] at hslen
    exact hne (by omega)
  obtain ⟨b, bs, hsorted⟩ := List.exists_cons_of_ne_nil hsort_ne
  have hkpos : 0 < jsOrNat optK st.k := jsOrNat_pos optK st.k hk
  obtain ⟨k', hk'⟩ : ∃ k', jsOrNat optK st.k = k' + 1 :=
    ⟨_, (Nat.succ_pred_eq_of_pos hkpos).symm⟩
  have htake : (sortByDistance ds).take (jsOrNat optK st.k) = b :: bs.take k' := by
    rw [hsorted, hk', List.take_succ_cons]
  rw [htake] at hnb
  subst hnb
  have hth : ¬ b.similarity < jsOrReal optTh st.similarityThreshold :=
    hgate b (by rw [hsorted]; rfl)
  obtain ⟨l₀, hl₀mem, hl₀sc⟩ := hscore
  have hdist_ne : distinctLabels (b :: bs.take k') ≠ [] := by
    intro h0
    rw [h0] at hl₀mem
    simp at hl₀mem
  obtain ⟨d₀, dls, hdist⟩ := List.exists_cons_of_ne_nil hdist_ne
  have hvotes : buildVotes (b :: bs.take k') =
      (d₀, labelCount (b :: bs.take k') d₀, labelTotalSim (b :: bs.take k') d₀) ::
        dls.map (fun l =>
          (l, labelCount (b :: bs.take k') l, labelTotalSim (b :: bs.take k') l)) := by
    rw [buildVotes_eq, hdist, List.map_cons]
  have hwitness : ∃ w ∈
      (d₀, labelCount (b :: bs.take k') d₀, labelTotalSim (b :: bs.take k') d₀) ::
        dls.map (fun l =>
          (l, labelCount (b :: bs.take k') l, labelTotalSim (b :: bs.take k') l)),
      -1 < voteScore w := by
    refine ⟨(l₀, labelCount (b :: bs.take k') l₀, labelTotalSim (b :: bs.take k') l₀),
      ?_, hl₀sc⟩
    have hmem' : l₀ ∈ d₀ :: dls := hdist ▸ hl₀mem
    rcases List.mem_cons.mp hmem' with rfl | hmem''
    · exact List.mem_cons_self _ _
    · exact List.mem_cons_of_mem _ (List.mem_map_of_mem _ hmem'')
  have hpick : pickBest (buildVotes (b :: bs.take k')) =
      (dls.foldl (fun best next =>
          if claimScore (b :: bs.take k') best < claimScore (b :: bs.take k') next
          then next else best) d₀,
       claimScore (b :: bs.take k') (dls.foldl (fun best next =>
          if claimScore (b :: bs.take k') best < claimScore (b :: bs.take k') next
          then next else best) d₀),
       labelCount (b :: bs.take k') (dls.foldl (fun best next =>
          if claimScore (b :: bs.take k') best < claimScore (b :: bs.take k') next
          then next else best) d₀)) := by
    rw [hvotes, pickBest_cons _ _ hwitness]
    exact voteFold_map (b :: bs.take k') dls d₀
  have hwinner : claimWinner (b :: bs.take k') =
      some (dls.foldl (fun best next =>
          if claimScore (b :: bs.take k') best < claimScore (b :: bs.take k') next
          then next else best) d₀) := by
    unfold claimWinner
    rw [hdist]
  simp only [classify]
  rw [if_neg hne, hds, exceptOkBind, htake]
  dsimp only
  rw [if_neg hth]
  refine ⟨_, _, rfl, hwinner, ?_, ?_⟩
  · show (pickBest (buildVotes (b :: bs.take k'))).1 = _
    rw [hpick]
  · show min ((((b :: bs.take k').filter
        (fun n => n.label = (pickBest (buildVotes (b :: bs.take k'))).1)).map
        (fun n => n.similarity)).sum /
          ((pickBest (buildVotes (b :: bs.take k'))).2.2 : ℝ) *
        (((pickBest (buildVotes (b :: bs.take k'))).2.2 : ℝ) /
          ((jsOrNat optK st.k : ℕ) : ℝ))) 1 = _
    rw [hpick]
    rfl

/-- C6 (counterexample): with three "A" samples at similarities 3/5, -4/5,
-24/25, k = 3 and threshold 3/5, the gate passes but the single label's score
-29/25 never beats the fold's -1 sentinel: classify returns label "" although
the claimed highest-score winner is "A". -/
theorem c6_counterexample :
    (∃ r : ClassificationResult,
      classify KNNState.default lowSimSamples [(1:ℝ), 0] (some 3) (some (3/5)) false =
        .ok (some r) ∧ r.label = "") ∧
    claimWinner lowSimScored = some "A" ∧ ("A" : String) ≠ "" := by
  have hcv1 : cosineVal [(1:ℝ), 0] [3/5, 4/5] = 3/5 := by
    norm_num [cosineVal, jsOr1, Finset.sum_range_succ]
  have hcv2 : cosineVal [(1:ℝ), 0] [-(4/5), 3/5] = -(4/5) := by
    norm_num [cosineVal, jsOr1, Finset.sum_range_succ]
  have hcv3 : cosineVal [(1:ℝ), 0] [-(24/25), 7/25] = -(24/25) := by
    norm_num [cosineVal, jsOr1, Finset.sum_range_succ]
  have hs1 : scoreSample false [(1:ℝ), 0] { label := "A", embedding := [3/5, 4/5] } =
      .ok { label := "A", distance := 1 - 3/5, similarity := 3/5 } := by
    simp [scoreSample, cosineSimilarity, hcv1, exceptOkMap, exceptOkBind]
  have hs2 : scoreSample false [(1:ℝ), 0] { label := "A", embedding := [-(4/5), 3/5] } =
      .ok { label := "A", distance := 1 - -(4/5), similarity := -(4/5) } := by
    simp [scoreSample, cosineSimilarity, hcv2, exceptOkMap, exceptOkBind]
  have hs3 : scoreSample false [(1:ℝ), 0] { label := "A", embedding := [-(24/25), 7/25] } =
      .ok { label := "A", distance := 1 - -(24/25), similarity := -(24/25) } := by
    simp [scoreSample, cosineSimilarity, hcv3, exceptOkMap, exceptOkBind]
  have hds : lowSimSamples.mapM (scoreSample false [(1:ℝ), 0]) = .ok lowSimScored := by
    simp [lowSimSamples, lowSimScored, List.mapM, List.mapM.loop, hs1, hs2, hs3, exceptOkBind]
  have hsorted : sortByDistance lowSimScored = lowSimScored := by
    rw [sortByDistance]
    apply List.Sorted.insertionSort_eq
    simp only [lowSimScored, List.sorted_cons, List.forall_mem_cons, List.forall_mem_nil,
      List.sorted_nil, and_true, true_and]
    norm_num
  have hbv : buildVotes lowSimScored = [("A", 3, 3/5 + -(4/5) + -(24/25))] := by
    simp [buildVotes, lowSimScored, updateVote]
  have hpb : pickBest (buildVotes lowSimScored) = ("", -1, 0) := by
    rw [hbv, pickBest, List.foldl_cons, List.foldl_nil, voteStep, if_neg]
    show ¬ (-1 : ℝ) < voteScore ("A", 3, 3/5 + -(4/5) + -(24/25))
    norm_num [voteScore]
  have hdl : distinctLabels lowSimScored = ["A"] := by
    simp [distinctLabels, lowSimScored]
  have hwin : claimWinner lowSimScored = some "A" := by
    unfold claimWinner
    rw [hdl]
    rfl
  have hlen0 : ¬ lowSimSamples.length = 0 := by simp [lowSimSamples]
  have hjs : jsOrReal (some (3/5)) KNNState.default.similarityThreshold = 3/5 := by
    rw [jsOrReal, if_neg (by norm_num : ¬ (3/5 : ℝ) = 0)]
  have hgate : ¬ ({ label := "A", distance := 1 - 3/5, similarity := 3/5 } : Scored).similarity <
      jsOrReal (some (3/5)) KNNState.default.similarityThreshold := by
    rw [hjs]
    exact lt_irrefl _
  refine ⟨?_, hwin, by decide⟩
  simp only [classify]
  rw [if_neg hlen0, hds, exceptOkBind, hsorted]
  rw [show (lowSimScored : List Scored) =
    ({ label := "A", distance := 1 - 3/5, similarity := 3/5 } : Scored) ::
    [{ label := "A", distance := 1 - -(4/5), similarity := -(4/5) },
     { label := "A", distance := 1 - -(24/25), similarity := -(24/25) }] from rfl]
  rw [show (({ label := "A", distance := 1 - 3/5, similarity := 3/5 } : Scored) ::
    [{ label := "A", distance := 1 - -(4/5), similarity := -(4/5) },
     { label := "A", distance := 1 - -(24/25), similarity := -(24/25) }]).take
      (jsOrNat (some 3) KNNState.default.k) =
    ({ label := "A", distance := 1 - 3/5, similarity := 3/5 } : Scored) ::
    [{ label := "A", distance := 1 - -(4/5), similarity := -(4/5) },
     { label := "A", distance := 1 - -(24/25), similarity := -(24/25) }] from rfl]
  dsimp only
  rw [if_neg hgate]
  refine ⟨_, rfl, ?_⟩
  show (pickBest (buildVotes lowSimScored)).1 = ""
  rw [hpb]

/-- C6 witness: two "cat" neighbors (similarities 1 and 3/5) and one "dog"
neighbor (similarity 0) with the default k = 5 and threshold 0.7: "cat" wins
with confidence min((4/5)·(2/5), 1) = 8/25. -/
theorem c6_amended_witness :
    ∃ r : ClassificationResult,
      classify KNNState.default catDogSamples [(1:ℝ), 0] none none false = .ok (some r) ∧
      r.label = "cat" ∧ r.confidence = 8 / 25 := by
  have hcv1 : cosineVal [(1:ℝ), 0] [1, 0] = 1 := by
    norm_num [cosineVal, jsOr1, Finset.sum_range_succ]
  have hcv2 : cosineVal [(1:ℝ), 0] [3/5, 4/5] = 3/5 := by
    norm_num [cosineVal, jsOr1, Finset.sum_range_succ]
  have hcv3 : cosineVal [(1:ℝ), 0] [0, 1] = 0 := by
    norm_num [cosineVal, jsOr1, Finset.sum_range_succ]
  have hs1 : scoreSample false [(1:ℝ), 0] { label := "cat", embedding := [1, 0] } =
      .ok { label := "cat", distance := 1 - 1, similarity := 1 } := by
    simp [scoreSample, cosineSimilarity, hcv1, exceptOkMap, exceptOkBind]
  have hs2 : scoreSample false [(1:ℝ), 0] { label := "cat", embedding := [3/5, 4/5] } =
      .ok { label := "cat", distance := 1 - 3/5, similarity := 3/5 } := by
    simp [scoreSample, cosineSimilarity, hcv2, exceptOkMap, exceptOkBind]
  have hs3 : scoreSample false [(1:ℝ), 0] { label := "dog", embedding := [0, 1] } =
      .ok { label := "dog", distance := 1 - 0, similarity := 0 } := by
    simp [scoreSample, cosineSimilarity, hcv3, exceptOkMap, exceptOkBind]
  have hds : catDogSamples.mapM (scoreSample false [(1:ℝ), 0]) = .ok catDogScored := by
    simp [catDogSamples, catDogScored, List.mapM, List.mapM.loop, hs1, hs2, hs3, exceptOkBind]
  have hsorted : sortByDistance catDogScored = catDogScored := by
    rw [sortByDistance]
    apply List.Sorted.insertionSort_eq
    simp only [catDogScored, List.sorted_cons, List.forall_mem_cons, List.forall_mem_nil,
      List.sorted_nil, and_true, true_and]
    norm_num
  have hk : 0 < KNNState.default.k := by decide
  have hne : ¬ catDogSamples.length = 0 := by simp [catDogSamples]
  have hnb : catDogScored = (sortByDistance catDogScored).take (jsOrNat none KNNState.default.k) := by
    rw [hsorted]
    rfl
  have hgate : ∀ b, (sortByDistance catDogScored).head? = some b →
      ¬ b.similarity < jsOrReal none KNNState.default.similarityThreshold := by
    intro b hb
    rw [hsorted] at hb
    have hb' : b = { label := "cat", distance := 1 - 1, similarity := 1 } := by
      rw [show (catDogScored.head? : Option Scored) =
        some { label := "cat", distance := 1 - 1, similarity := 1 } from rfl] at hb
      exact (Option.some.injEq _ _).mp hb.symm
    rw [hb']
    show ¬ (1 : ℝ) < jsOrReal none KNNState.default.similarityThreshold
    rw [show jsOrReal none KNNState.default.similarityThreshold = 7/10 from rfl]
    norm_num
  have hdl : distinctLabels catDogScored = ["cat", "dog"] := by
    simp [distinctLabels, catDogScored]
  have hcount_cat : labelCount catDogScored "cat" = 2 := by
    simp [labelCount, catDogScored]
  have htot_cat : labelTotalSim catDogScored "cat" = 1 + (3/5 + 0) := by
    simp [labelTotalSim, catDogScored]
  have hscore_cat : claimScore catDogScored "cat" = 2 * ((1 + (3/5 + 0)) / 2) := by
    rw [claimScore, labelAvgSim, hcount_cat, htot_cat]
    norm_num
  have hscore : ∃ l ∈ distinctLabels catDogScored, -1 < claimScore catDogScored l := by
    refine ⟨"cat", by rw [hdl]; exact List.mem_cons_self _ _, ?_⟩
    rw [hscore_cat]
    norm_num
  obtain ⟨r, w, hcl, hwin, hlab, hconf⟩ := c6_amended KNNState.default catDogSamples
    [(1:ℝ), 0] none none false catDogScored catDogScored hk hds hne hnb hgate hscore
  have hwcat : w = "cat" := by
    have hcw : claimWinner catDogScored = some "cat" := by
      unfold claimWinner
      rw [hdl]
      have hdog : claimScore catDogScored "dog" = 1 * ((0 + 0) / 1) := by
        rw [claimScore, labelAvgSim]
        have h1 : labelCount catDogScored "dog" = 1 := by simp [labelCount, catDogScored]
        have h2 : labelTotalSim catDogScored "dog" = 0 + 0 := by
          simp [labelTotalSim, catDogScored]
        rw [h1, h2]
        norm_num
      have hnolt : ¬ claimScore catDogScored "cat" < claimScore catDogScored "dog" := by
        rw [hscore_cat, hdog]
        norm_num
      simp only [List.foldl_cons, List.foldl_nil, if_neg hnolt]
    rw [hcw] at hwin
    exact (Option.some.injEq _ _).mp hwin.symm
  subst hwcat
  refine ⟨r, hcl, hlab, ?_⟩
  rw [hconf, labelAvgSim, hcount_cat, htot_cat]
  rw [show jsOrNat none KNNState.default.k = 5 from rfl]
  rw [show ((2 : ℕ) : ℝ) = 2 from rfl, min_eq_left (by norm_num)]
  norm_num

end SafeHaven
